import Mathlib

/-!
# Architect session lifecycle manager

A shallow embedding of `internal/architect/manager.go` and of the parts of
`internal/cmd/architect.go` that drive it (`architectSessionName`,
`getArchitectManager` and `runArchitectRestart`), followed by theorems about
the embedded functions.

Modelling conventions

* Go strings are modelled by `String`.  The only string surgery in the source
  is `strings.Cut(override, "=")`; the separator is one ASCII byte, which never
  occurs inside a multi-byte UTF-8 sequence, so cutting by characters and
  cutting by bytes give the same pieces.
* Go `error` values are modelled by `GoError`; `nil` is `none`.
* The manager keeps no state of its own.  Everything it touches lives in
  packages outside the two embedded files (tmux driver, beads, config,
  runtime, workspace, session).  Those are taken as a parameter `Deps σ` over
  an arbitrary world state `σ`.  Calls that only read are functions of the
  world; calls that may change it return the new world.
* Every external call the manager issues is appended to a log together with
  the error it returned, so that "which calls were issued, in which order"
  is part of the result of each operation.
* `log.Printf` / `fmt.Printf` output is not modelled.
-/

namespace Gastown

/-! ## Errors -/

/-- Go error values.  `sentinel` is an error created with `errors.New` in the
architect package, `external` one created by a collaborator package, and
`wrapf` the result of `fmt.Errorf` with a `%w` verb (the format string is kept
verbatim). -/
inductive GoError where
  | sentinel (msg : String)
  | external (msg : String)
  | wrapf (format : String) (inner : GoError)
  deriving DecidableEq, Repr

/-- Sentinel `ErrNotRunning = errors.New("architect not running")`. -/
def ErrNotRunning : GoError := GoError.sentinel "architect not running"

/-- Sentinel `ErrAlreadyRunning = errors.New("architect already running")`. -/
def ErrAlreadyRunning : GoError := GoError.sentinel "architect already running"

/-- Go `fmt.Errorf(format, err)` for a format with a single `%w` verb. -/
def Errorf (format : String) (err : GoError) : GoError := GoError.wrapf format err

/-- Go `errors.Unwrap`. -/
def GoError.Unwrap : GoError → Option GoError
  | GoError.wrapf _ inner => some inner
  | _ => none

/-! ## Strings -/

/-- Worker of `Sprintf`: copies the format, replacing each `%s` verb by the
next argument.  Only the `%s` verb is modelled (the only one the embedded
calls use, always with matching arguments). -/
def Sprintf.go : List Char → List String → List Char
  | '%' :: 's' :: rest, a :: args => a.data ++ Sprintf.go rest args
  | c :: rest, args => c :: Sprintf.go rest args
  | [], _ => []

/-- Go `fmt.Sprintf(format, args...)` for `%s` verbs and string arguments. -/
def Sprintf (format : String) (args : List String) : String :=
  ⟨Sprintf.go format.data args⟩

/-- Worker of `Index`: position of the first occurrence of `sep` in the text,
counted from `i`, or `-1`. -/
def Index.go (sep : List Char) : List Char → Nat → Int
  | [], i => if sep = [] then (i : Int) else -1
  | c :: cs, i => if sep.isPrefixOf (c :: cs) then (i : Int) else Index.go sep cs (i + 1)

/-- Go `strings.Index(s, sep)`: index of the first instance of `sep` in `s`, or
`-1` if `sep` is not present. -/
def Index (s sep : String) : Int := Index.go sep.data s.data 0

/-- Go `strings.Cut(s, sep)`: slices `s` around the first instance of `sep`,
returning the text before and after it and whether `sep` was found; when it
is not found the result is `(s, "", false)`. -/
def Cut (s sep : String) : String × String × Bool :=
  let i := Index s sep
  if i ≥ 0 then
    (⟨s.data.take i.toNat⟩, ⟨s.data.drop (i.toNat + sep.length)⟩, true)
  else
    (s, "", false)

/-! ## Data -/

/-- The fields of `rig.Rig` the manager reads. -/
structure Rig where
  Name : String
  Path : String
  deriving DecidableEq, Repr

/-- Go `type Manager struct { rig *rig.Rig }`. -/
structure Manager where
  rig : Rig
  deriving DecidableEq, Repr

/-- Constructor `NewManager` creates a new architect manager for a rig. -/
def NewManager (r : Rig) : Manager := { rig := r }

/-- Method `SessionName` returns the tmux session name for this architect. -/
def Manager.SessionName (m : Manager) : String :=
  Sprintf "gt-%s-architect" [m.rig.Name]

/-- Function `architectSessionName` of the command layer. -/
def architectSessionName (rigName : String) : String :=
  Sprintf "gt-%s-architect" [rigName]

/-- The field of `tmux.SessionInfo` the callers read. -/
structure SessionInfo where
  Name : String
  deriving DecidableEq, Repr

/-- Go `beads.AgentFields` as filled in by `ensureAgentBead`. -/
structure AgentFields where
  RoleType : String
  Rig : String
  AgentState : String
  deriving DecidableEq, Repr

/-- Go `session.BeaconConfig` as filled in by `Start`. -/
structure BeaconConfig where
  Recipient : String
  Sender : String
  Topic : String
  deriving DecidableEq, Repr

/-- Go `config.AgentEnvConfig` as filled in by `Start`. -/
structure AgentEnvConfig where
  Role : String
  Rig : String
  TownRoot : String
  deriving DecidableEq, Repr

/-! ## External calls -/

/-- The external calls the manager issues that can fail or change the world,
with their arguments. -/
inductive Call where
  | HasSession (name : String)
  | IsAgentAlive (name : String)
  | GetSessionInfo (name : String)
  | KillSession (name : String)
  | KillSessionWithProcesses (name : String)
  | NewSessionWithCommand (name workDir command : String)
  | SetEnvironment (name key value : String)
  | ConfigureGasTownSession (name theme rig worker role : String)
  | WaitForCommand (name : String) (shells : List String) (timeout : Nat)
  | AcceptBypassPermissionsWarning (name : String)
  | WorkspaceFind (path : String)
  | BeadsShow (townRoot id : String)
  | CreateAgentBead (townRoot id title : String) (fields : AgentFields)
  | EnsureSettingsForRole (settingsDir workDir role runtimeConfig : String)
  | EnsureGitignorePatterns (workDir : String)
  | BuildAgentStartupCommandWithAgentOverride
      (role rigName townRoot rigPath prompt agentOverride : String)
  | TrackSessionPID (townRoot name : String)
  | Sleep (duration : Nat)
  | CheckRigNotParkedOrDocked (rigName : String)
  | GetRig (rigName : String)
  deriving DecidableEq, Repr

/-- One entry of the call log: the call and the error it returned. -/
structure Event where
  call : Call
  err : Option GoError
  deriving DecidableEq, Repr

/-- The collaborators of the manager, over a world state `σ`.  None of these
functions is defined in the embedded files; they are parameters.  A function
returning a new `σ` may change the world, the others only read it. -/
structure Deps (σ : Type) where
  /-- Driver method `(*tmux.Tmux).HasSession(name) (bool, error)`. -/
  HasSession : String → σ → Bool × Option GoError
  /-- Driver method `(*tmux.Tmux).IsAgentAlive(name) bool`. -/
  IsAgentAlive : String → σ → Bool
  /-- Driver method `(*tmux.Tmux).GetSessionInfo(name) (*SessionInfo, error)`. -/
  GetSessionInfo : String → σ → Option SessionInfo × Option GoError
  /-- Driver method `(*tmux.Tmux).KillSession(name) error`. -/
  KillSession : String → σ → Option GoError × σ
  /-- Driver method `(*tmux.Tmux).KillSessionWithProcesses(name) error`. -/
  KillSessionWithProcesses : String → σ → Option GoError × σ
  /-- Driver method `(*tmux.Tmux).NewSessionWithCommand(name, workDir, command) error`. -/
  NewSessionWithCommand : String → String → String → σ → Option GoError × σ
  /-- Driver method `(*tmux.Tmux).SetEnvironment(name, key, value) error`. -/
  SetEnvironment : String → String → String → σ → Option GoError × σ
  /-- Driver method `(*tmux.Tmux).ConfigureGasTownSession(name, theme, rig, worker, role) error`. -/
  ConfigureGasTownSession : String → String → String → String → String → σ → Option GoError × σ
  /-- Driver method `(*tmux.Tmux).WaitForCommand(name, shells, timeout) error`. -/
  WaitForCommand : String → List String → Nat → σ → Option GoError × σ
  /-- Driver method `(*tmux.Tmux).AcceptBypassPermissionsWarning(name) error`. -/
  AcceptBypassPermissionsWarning : String → σ → Option GoError × σ
  /-- External `tmux.AssignTheme(rigName)`, rendered as text. -/
  AssignTheme : String → String
  /-- External `workspace.Find(path) (string, error)`. -/
  workspaceFind : String → σ → String × Option GoError
  /-- External `beads.GetPrefixForRig(townRoot, rigName)`. -/
  GetPrefixForRig : String → String → σ → String
  /-- External `beads.AgentBeadIDWithPrefix(prefix, rig, role, name)`. -/
  AgentBeadIDWithPrefix : String → String → String → String → String
  /-- External `beads.New(townRoot).Show(id)`; only the error is used. -/
  BeadsShow : String → String → σ → Option GoError
  /-- External `beads.New(townRoot).CreateAgentBead(id, title, fields)`; only the error is used. -/
  CreateAgentBead : String → String → String → AgentFields → σ → Option GoError × σ
  /-- External `config.ResolveRoleAgentConfig(role, townRoot, rigPath)`, rendered as text. -/
  ResolveRoleAgentConfig : String → String → String → σ → String
  /-- External `config.RoleSettingsDir(role, rigPath)`. -/
  RoleSettingsDir : String → String → String
  /-- External `runtime.EnsureSettingsForRole(settingsDir, workDir, role, runtimeConfig) error`. -/
  EnsureSettingsForRole : String → String → String → String → σ → Option GoError × σ
  /-- External `rig.EnsureGitignorePatterns(workDir) error`. -/
  EnsureGitignorePatterns : String → σ → Option GoError × σ
  /-- External `session.BuildStartupPrompt(beaconConfig, instructions)`. -/
  BuildStartupPrompt : BeaconConfig → String → String
  /-- External `config.BuildAgentStartupCommandWithAgentOverride(...) (string, error)`. -/
  BuildAgentStartupCommandWithAgentOverride :
    String → String → String → String → String → String → σ → String × Option GoError
  /-- External `config.BuildAgentStartupCommand(role, rigName, townRoot, rigPath, prompt)`. -/
  BuildAgentStartupCommand : String → String → String → String → String → σ → String
  /-- External `config.AgentEnv(cfg)`: the entries of the returned map, in the order in
  which the `range` loop of `Start` visits them. -/
  AgentEnv : AgentEnvConfig → σ → List (String × String)
  /-- External `session.TrackSessionPID(townRoot, sessionID, t) error`. -/
  TrackSessionPID : String → String → σ → Option GoError × σ
  /-- External `time.Sleep(d)`. -/
  Sleep : Nat → σ → σ
  /-- External `constants.SupportedShells`. -/
  SupportedShells : List String
  /-- External `constants.ClaudeStartTimeout`. -/
  ClaudeStartTimeout : Nat
  /-- External `constants.ShutdownNotifyDelay`. -/
  ShutdownNotifyDelay : Nat
  /-- Command-layer helper `checkRigNotParkedOrDocked(rigName) error`. -/
  checkRigNotParkedOrDocked : String → σ → Option GoError
  /-- Command-layer helper `getRig(rigName)`: the rig and the error; the rig is
  meaningful when the error is nil. -/
  getRig : String → σ → Rig × Option GoError

/-- The world together with the log of calls issued so far. -/
structure Run (σ : Type) where
  st : σ
  log : List Event

variable {σ : Type}

/-- Issue a read-only call: the world is unchanged, the call is logged. -/
def Run.read {α : Type} (r : Run σ) (c : Call) (res : α) (err : Option GoError) : α × Run σ :=
  (res, { st := r.st, log := r.log ++ [{ call := c, err := err }] })

/-- Issue a call that may change the world: the new world replaces the old
one, the call is logged with the error it returned. -/
def Run.exec (r : Run σ) (c : Call) (res : Option GoError × σ) : Option GoError × Run σ :=
  (res.1, { st := res.2, log := r.log ++ [{ call := c, err := res.1 }] })

/-! ## The manager (`internal/architect/manager.go`) -/

/-- Method `IsRunning` checks if the architect session is active:
`return t.HasSession(m.SessionName())`. -/
def Manager.IsRunning (d : Deps σ) (m : Manager) (r : Run σ) :
    (Bool × Option GoError) × Run σ :=
  let res := d.HasSession m.SessionName r.st
  r.read (Call.HasSession m.SessionName) res res.2

/-- Method `Status` returns information about the architect session. -/
def Manager.Status (d : Deps σ) (m : Manager) (r : Run σ) :
    (Option SessionInfo × Option GoError) × Run σ :=
  let sessionID := m.SessionName
  let hs := d.HasSession sessionID r.st
  let r1 := (r.read (Call.HasSession sessionID) () hs.2).2
  match hs.2 with
  | some err => ((none, some (Errorf "checking session: %w" err)), r1)
  | none =>
    if !hs.1 then
      ((none, some ErrNotRunning), r1)
    else
      let info := d.GetSessionInfo sessionID r1.st
      r1.read (Call.GetSessionInfo sessionID) info info.2

/-- Method `townRoot`: the town root found from the rig path, or the rig path
itself when the lookup fails or finds nothing. -/
def Manager.townRoot (d : Deps σ) (m : Manager) (r : Run σ) : String × Run σ :=
  let found := d.workspaceFind m.rig.Path r.st
  let r1 := (r.read (Call.WorkspaceFind m.rig.Path) () found.2).2
  if found.2.isSome || found.1 == "" then
    (m.rig.Path, r1)
  else
    (found.1, r1)

/-- Method `ensureAgentBead` creates the architect agent bead if it does not
already exist. -/
def Manager.ensureAgentBead (d : Deps σ) (m : Manager) (townRoot : String) (r : Run σ) :
    Option GoError × Run σ :=
  let pfx0 := d.GetPrefixForRig townRoot m.rig.Name r.st
  let pfx := if pfx0 == "" then "gt" else pfx0
  let agentID := d.AgentBeadIDWithPrefix pfx m.rig.Name "architect" ""
  -- Check if already exists
  let shown := d.BeadsShow townRoot agentID r.st
  let r1 := (r.read (Call.BeadsShow townRoot agentID) () shown).2
  match shown with
  | none => (none, r1)
  | some _ =>
    let fields : AgentFields :=
      { RoleType := "architect", Rig := m.rig.Name, AgentState := "idle" }
    let title := Sprintf "Architect for %s - independent quality authority." [m.rig.Name]
    r1.exec (Call.CreateAgentBead townRoot agentID title fields)
      (d.CreateAgentBead townRoot agentID title fields r1.st)

/-- Lines 74-89 of `Start`: the liveness check.  The result is `some err` when
`Start` returns `err` at this point and `none` when it goes on. -/
def Manager.Start.liveness (d : Deps σ) (m : Manager) (r : Run σ) : Option GoError × Run σ :=
  let sessionID := m.SessionName
  -- Check if session already exists
  let hs := d.HasSession sessionID r.st
  let r1 := (r.read (Call.HasSession sessionID) () hs.2).2
  let running := hs.1
  if running then
    -- Session exists - check if Claude is actually running (healthy vs zombie)
    let r2 := (r1.read (Call.IsAgentAlive sessionID) () none).2
    if d.IsAgentAlive sessionID r1.st then
      -- Healthy - Claude is running
      (some ErrAlreadyRunning, r2)
    else
      -- Zombie - tmux alive but Claude dead. Kill and recreate.
      let k := r2.exec (Call.KillSession sessionID) (d.KillSession sessionID r2.st)
      match k.1 with
      | some err => (some (Errorf "killing zombie session: %w" err), k.2)
      | none => (none, k.2)
  else
    (none, r1)

/-- Lines 130-133 of `Start`: create the session with the startup command.
The result is `some err` when `Start` returns `err` here and `none` when the
session has been created. -/
def Manager.Start.create (d : Deps σ) (m : Manager) (command : String) (r : Run σ) :
    Option GoError × Run σ :=
  let sessionID := m.SessionName
  let workDir := m.rig.Path
  -- Create session with command directly
  let ns := r.exec (Call.NewSessionWithCommand sessionID workDir command)
    (d.NewSessionWithCommand sessionID workDir command r.st)
  match ns.1 with
  | some err => (some (Errorf "creating tmux session: %w" err), ns.2)
  | none => (none, ns.2)

/-- Lines 91-133 of `Start`: agent bead, runtime settings, gitignore, startup
command and session creation.  The result is `some err` when `Start` returns
`err` in this part and `none` when the session has been created. -/
def Manager.Start.launch (d : Deps σ) (m : Manager) (townRoot agentOverride : String)
    (r : Run σ) : Option GoError × Run σ :=
  -- Ensure agent bead exists for mail routing (failure is only logged)
  let r1 := (m.ensureAgentBead d townRoot r).2
  -- Working directory: rig root
  let workDir := m.rig.Path
  -- Ensure runtime settings
  let runtimeConfig := d.ResolveRoleAgentConfig "architect" townRoot m.rig.Path r1.st
  let architectSettingsDir := d.RoleSettingsDir "architect" m.rig.Path
  let es := r1.exec (Call.EnsureSettingsForRole architectSettingsDir workDir "architect" runtimeConfig)
    (d.EnsureSettingsForRole architectSettingsDir workDir "architect" runtimeConfig r1.st)
  match es.1 with
  | some err => (some (Errorf "ensuring runtime settings: %w" err), es.2)
  | none =>
    -- Ensure .gitignore has required Gas Town patterns (failure is only printed)
    let r3 := (es.2.exec (Call.EnsureGitignorePatterns workDir)
      (d.EnsureGitignorePatterns workDir es.2.st)).2
    -- Build startup command
    let initialPrompt := d.BuildStartupPrompt
      { Recipient := Sprintf "%s/architect" [m.rig.Name], Sender := "mayor", Topic := "review" }
      "Run `gt prime` and check mail for review requests."
    if agentOverride != "" then
      let b := d.BuildAgentStartupCommandWithAgentOverride "architect" m.rig.Name townRoot
        m.rig.Path initialPrompt agentOverride r3.st
      let r4 := (r3.read (Call.BuildAgentStartupCommandWithAgentOverride "architect" m.rig.Name
        townRoot m.rig.Path initialPrompt agentOverride) () b.2).2
      match b.2 with
      | some err => (some (Errorf "building startup command with agent override: %w" err), r4)
      | none => Manager.Start.create d m b.1 r4
    else
      Manager.Start.create d m
        (d.BuildAgentStartupCommand "architect" m.rig.Name townRoot m.rig.Path initialPrompt r3.st)
        r3

/-- The loop `for k, v := range envVars { _ = t.SetEnvironment(sessionID, k, v) }`
over the entries in the order the loop visits them. -/
def Manager.Start.setDefaults (d : Deps σ) (sessionID : String) :
    List (String × String) → Run σ → Run σ
  | [], r => r
  | (k, v) :: rest, r =>
    Manager.Start.setDefaults d sessionID rest
      (r.exec (Call.SetEnvironment sessionID k v) (d.SetEnvironment sessionID k v r.st)).2

/-- The loop over `envOverrides`: `strings.Cut(override, "=")`, and when the
separator was found `_ = t.SetEnvironment(sessionID, key, value)`. -/
def Manager.Start.applyOverrides (d : Deps σ) (sessionID : String) :
    List String → Run σ → Run σ
  | [], r => r
  | override :: rest, r =>
    let cut := Cut override "="
    if cut.2.2 then
      Manager.Start.applyOverrides d sessionID rest
        (r.exec (Call.SetEnvironment sessionID cut.1 cut.2.1)
          (d.SetEnvironment sessionID cut.1 cut.2.1 r.st)).2
    else
      Manager.Start.applyOverrides d sessionID rest r

/-- Lines 135-154 of `Start`: environment defaults, CLI overrides and theming.
Every error in this part is discarded. -/
def Manager.Start.configure (d : Deps σ) (m : Manager) (townRoot : String)
    (envOverrides : List String) (r : Run σ) : Run σ :=
  let sessionID := m.SessionName
  -- Set environment variables (non-fatal)
  let envVars := d.AgentEnv { Role := "architect", Rig := m.rig.Name, TownRoot := townRoot } r.st
  let r1 := Manager.Start.setDefaults d sessionID envVars r
  -- Apply CLI env overrides (highest priority, non-fatal)
  let r2 := Manager.Start.applyOverrides d sessionID envOverrides r1
  -- Apply Gas Town theming (non-fatal)
  let theme := d.AssignTheme m.rig.Name
  (r2.exec (Call.ConfigureGasTownSession sessionID theme m.rig.Name "architect" "architect")
    (d.ConfigureGasTownSession sessionID theme m.rig.Name "architect" "architect" r2.st)).2

/-- Lines 156-174 of `Start`: wait for the agent, clean up on failure, then the
non-fatal finishing steps. -/
def Manager.Start.await (d : Deps σ) (m : Manager) (townRoot : String) (r : Run σ) :
    Option GoError × Run σ :=
  let sessionID := m.SessionName
  -- Wait for Claude to start - fatal if Claude fails to launch
  let wt := r.exec (Call.WaitForCommand sessionID d.SupportedShells d.ClaudeStartTimeout)
    (d.WaitForCommand sessionID d.SupportedShells d.ClaudeStartTimeout r.st)
  match wt.1 with
  | some err =>
    let k := wt.2.exec (Call.KillSessionWithProcesses sessionID)
      (d.KillSessionWithProcesses sessionID wt.2.st)
    (some (Errorf "waiting for architect to start: %w" err), k.2)
  | none =>
    -- Accept bypass permissions warning dialog if it appears
    let r2 := (wt.2.exec (Call.AcceptBypassPermissionsWarning sessionID)
      (d.AcceptBypassPermissionsWarning sessionID wt.2.st)).2
    -- Track PID for defense-in-depth orphan cleanup (non-fatal)
    let r3 := (r2.exec (Call.TrackSessionPID townRoot sessionID)
      (d.TrackSessionPID townRoot sessionID r2.st)).2
    let r4 := (r3.exec (Call.Sleep d.ShutdownNotifyDelay)
      (none, d.Sleep d.ShutdownNotifyDelay r3.st)).2
    (none, r4)

/-- Method `Start` starts the architect session: the four parts above in
source order, returning at the first part that yields an error. -/
def Manager.Start (d : Deps σ) (m : Manager) (agentOverride : String)
    (envOverrides : List String) (r : Run σ) : Option GoError × Run σ :=
  let lv := Manager.Start.liveness d m r
  match lv.1 with
  | some err => (some err, lv.2)
  | none =>
    let tr := m.townRoot d lv.2
    let townRoot := tr.1
    let ln := Manager.Start.launch d m townRoot agentOverride tr.2
    match ln.1 with
    | some err => (some err, ln.2)
    | none =>
      Manager.Start.await d m townRoot
        (Manager.Start.configure d m townRoot envOverrides ln.2)

/-- Method `Stop` stops the architect session. -/
def Manager.Stop (d : Deps σ) (m : Manager) (r : Run σ) : Option GoError × Run σ :=
  let sessionID := m.SessionName
  -- Check if tmux session exists
  let hs := d.HasSession sessionID r.st
  let r1 := (r.read (Call.HasSession sessionID) () hs.2).2
  let running := hs.1
  if !running then
    (some ErrNotRunning, r1)
  else
    -- Kill the tmux session
    r1.exec (Call.KillSession sessionID) (d.KillSession sessionID r1.st)

/-! ## The command layer (`internal/cmd/architect.go`) -/

/-- Function `getArchitectManager` creates an architect manager for a rig:
the error of `getRig` is returned as it is, otherwise the manager of the rig
found. -/
def getArchitectManager (d : Deps σ) (rigName : String) (r : Run σ) :
    Except GoError Manager × Run σ :=
  let found := d.getRig rigName r.st
  let r1 := (r.read (Call.GetRig rigName) () found.2).2
  match found.2 with
  | some err => (Except.error err, r1)
  | none => (Except.ok (NewManager found.1), r1)

/-- Function `runArchitectRestart` (lines 308-333) with `rigName = args[0]`
and the two flag variables as arguments: the parked-or-docked check and the
manager lookup, each returning its error as it is; then `_ = mgr.Stop()`; then
`mgr.Start(...)`, whose error is returned wrapped. -/
def runArchitectRestart (d : Deps σ) (rigName : String) (architectAgentOverride : String)
    (architectEnvOverrides : List String) (r : Run σ) : Option GoError × Run σ :=
  let ck := d.checkRigNotParkedOrDocked rigName r.st
  let r0 := (r.read (Call.CheckRigNotParkedOrDocked rigName) () ck).2
  match ck with
  | some err => (some err, r0)
  | none =>
    let gm := getArchitectManager d rigName r0
    match gm.1 with
    | Except.error err => (some err, gm.2)
    | Except.ok mgr =>
      -- Stop existing session (non-fatal: may not be running)
      let r1 := (mgr.Stop d gm.2).2
      -- Start fresh
      let st := mgr.Start d architectAgentOverride architectEnvOverrides r1
      match st.1 with
      | some err => (some (Errorf "starting architect: %w" err), st.2)
      | none => (none, st.2)

/-- The three liveness states of a session. -/
inductive Liveness where
  | Absent
  | Zombie
  | Healthy
  deriving DecidableEq, Repr

/-- The liveness state of session `name` in world `w`, from the same two
driver queries `Start` uses (lines 78-85): the session-existence flag, then
agent liveness. -/
def Liveness.of (d : Deps σ) (name : String) (w : σ) : Liveness :=
  if (d.HasSession name w).1 then
    if d.IsAgentAlive name w then Liveness.Healthy else Liveness.Zombie
  else
    Liveness.Absent

/-- Modelled from the spec: one entry of the multiplexer's session table
(the tmux package is not among the embedded files).  A session has a name,
may or may not host a live agent process, and carries the environment
variables set on it, oldest first. -/
structure SimSession where
  name : String
  agentAlive : Bool
  env : List (String × String)
  deriving DecidableEq, Repr

/-- Modelled from the spec: the multiplexer's live state, its session table
(sections 3 and 5 of the spec: the table is the single shared mutable
resource). -/
structure Sim where
  table : List SimSession
  deriving DecidableEq, Repr

/-- Modelled from the spec: the errors the collaborators are made to return in
a given scenario; `none` means the step works.  `beadShow` is the error of
the identity lookup (a missing bead). -/
structure Faults where
  hasSession : Option GoError
  killSession : Option GoError
  killSessionWithProcesses : Option GoError
  newSession : Option GoError
  setEnvironment : Option GoError
  waitForCommand : Option GoError
  ensureSettings : Option GoError
  buildCommand : Option GoError
  beadShow : Option GoError
  beadCreate : Option GoError
  deriving DecidableEq, Repr

/-- No collaborator fails and the identity bead already exists. -/
def Faults.none : Faults :=
  { hasSession := Option.none, killSession := Option.none,
    killSessionWithProcesses := Option.none, newSession := Option.none,
    setEnvironment := Option.none, waitForCommand := Option.none,
    ensureSettings := Option.none, buildCommand := Option.none,
    beadShow := Option.none, beadCreate := Option.none }

/-- Whether the table has a session of that name. -/
def Sim.has (s : Sim) (name : String) : Bool :=
  s.table.any (fun x => x.name == name)

/-- The table without the sessions of that name. -/
def Sim.remove (s : Sim) (name : String) : Sim :=
  { table := s.table.filter (fun x => x.name != name) }

/-- Modelled from the spec: the session driver and the other collaborators of
section 2 and section 6 of the spec, over the session table `Sim`, failing as
`f` says.  Sessions are created without a live agent; a successful bounded
wait means the agent process has appeared; a kill that works removes the
session; a step that fails leaves the table as it was. -/
def simDeps (f : Faults) : Deps Sim where
  HasSession name s :=
    match f.hasSession with
    | some e => (false, some e)
    | Option.none => (s.has name, Option.none)
  IsAgentAlive name s := s.table.any (fun x => x.name == name && x.agentAlive)
  GetSessionInfo name s :=
    if s.has name then (some { Name := name }, Option.none)
    else (Option.none, some (GoError.external "session not found"))
  KillSession name s :=
    match f.killSession with
    | some e => (some e, s)
    | Option.none => (Option.none, s.remove name)
  KillSessionWithProcesses name s :=
    match f.killSessionWithProcesses with
    | some e => (some e, s)
    | Option.none => (Option.none, s.remove name)
  NewSessionWithCommand name _ _ s :=
    match f.newSession with
    | some e => (some e, s)
    | Option.none =>
      if s.has name then (some (GoError.external "duplicate session"), s)
      else (Option.none, { table := s.table ++ [{ name := name, agentAlive := false, env := [] }] })
  SetEnvironment name key value s :=
    match f.setEnvironment with
    | some e => (some e, s)
    | Option.none =>
      (Option.none, { table := s.table.map (fun x =>
        if x.name == name then { x with env := x.env ++ [(key, value)] } else x) })
  ConfigureGasTownSession _ _ _ _ _ s := (Option.none, s)
  WaitForCommand name _ _ s :=
    match f.waitForCommand with
    | some e => (some e, s)
    | Option.none =>
      if s.has name then
        (Option.none, { table := s.table.map (fun x =>
          if x.name == name then { x with agentAlive := true } else x) })
      else (some (GoError.external "session not found"), s)
  AcceptBypassPermissionsWarning _ s := (Option.none, s)
  AssignTheme rigName := rigName
  workspaceFind _ _ := ("/town", Option.none)
  GetPrefixForRig _ _ _ := ""
  AgentBeadIDWithPrefix pfx rigName role _ := pfx ++ "-" ++ rigName ++ "-" ++ role
  BeadsShow _ _ _ := f.beadShow
  CreateAgentBead _ _ _ _ s := (f.beadCreate, s)
  ResolveRoleAgentConfig _ _ _ _ := "default"
  RoleSettingsDir role rigPath := rigPath ++ "/" ++ role
  EnsureSettingsForRole _ _ _ _ s := (f.ensureSettings, s)
  EnsureGitignorePatterns _ s := (Option.none, s)
  BuildStartupPrompt _ instructions := instructions
  BuildAgentStartupCommandWithAgentOverride _ _ _ _ _ agentOverride _ :=
    (agentOverride, f.buildCommand)
  BuildAgentStartupCommand _ _ _ _ _ _ := "claude"
  AgentEnv cfg _ := [("GT_ROLE", cfg.Role), ("GT_RIG", cfg.Rig)]
  TrackSessionPID _ _ s := (Option.none, s)
  Sleep _ s := s
  SupportedShells := ["bash", "zsh"]
  ClaudeStartTimeout := 60
  ShutdownNotifyDelay := 1
  checkRigNotParkedOrDocked _ _ := Option.none
  getRig rigName _ := ({ Name := rigName, Path := "/r" }, Option.none)

/-! ## Reading the call log -/

/-- The part of `Start` a call belongs to: `0` the liveness check (and
`Stop`, `Status`, the preliminaries of the command layer), `1` lines 91-133 up
to session creation, `2` lines 135-154 (environment and theming), `3` lines
156-174 (the wait and what follows). -/
def Call.stage : Call → Nat
  | Call.HasSession _ => 0
  | Call.IsAgentAlive _ => 0
  | Call.GetSessionInfo _ => 0
  | Call.KillSession _ => 0
  | Call.CheckRigNotParkedOrDocked _ => 0
  | Call.GetRig _ => 0
  | Call.WorkspaceFind _ => 1
  | Call.BeadsShow _ _ => 1
  | Call.CreateAgentBead _ _ _ _ => 1
  | Call.EnsureSettingsForRole _ _ _ _ => 1
  | Call.EnsureGitignorePatterns _ => 1
  | Call.BuildAgentStartupCommandWithAgentOverride _ _ _ _ _ _ => 1
  | Call.NewSessionWithCommand _ _ _ => 1
  | Call.SetEnvironment _ _ _ => 2
  | Call.ConfigureGasTownSession _ _ _ _ _ => 2
  | Call.WaitForCommand _ _ _ => 3
  | Call.KillSessionWithProcesses _ => 3
  | Call.AcceptBypassPermissionsWarning _ => 3
  | Call.TrackSessionPID _ _ => 3
  | Call.Sleep _ => 3

/-- The steps of the startup sequence whose error makes `Start` return:
settings materialisation, launch-command resolution, session creation and the
wait for the agent process. -/
def Call.isFatalStep : Call → Bool
  | Call.EnsureSettingsForRole _ _ _ _ => true
  | Call.BuildAgentStartupCommandWithAgentOverride _ _ _ _ _ _ => true
  | Call.NewSessionWithCommand _ _ _ => true
  | Call.WaitForCommand _ _ _ => true
  | _ => false

/-- The log entry of a session creation that succeeded. -/
def Event.created (ev : Event) : Bool :=
  match ev.call, ev.err with
  | Call.NewSessionWithCommand _ _ _, none => true
  | _, _ => false

/-- The `SetEnvironment` calls of a call log, in the order they were issued,
each as (session, key, value). -/
def setEnvCalls (log : List Event) : List (String × String × String) :=
  log.filterMap fun ev =>
    match ev.call with
    | Call.SetEnvironment name key value => some (name, key, value)
    | _ => none

/-- The override writes as the specification words them: one write for each
entry that contains `=`, in list order; the key is the text before the first
`=` of the entry and the value is all the text after it. -/
def specOverrideWrites (envOverrides : List String) : List (String × String) :=
  envOverrides.filterMap fun entry =>
    if '=' ∈ entry.data then
      some (⟨entry.data.takeWhile (fun c => c != '=')⟩,
            ⟨(entry.data.dropWhile (fun c => c != '=')).drop 1⟩)
    else
      none

/-- Modelled from the spec: the environment of a session after a sequence of
successful `SetEnvironment` writes (the tmux package is not among the embedded
files): each write sets its key, a later write to the same key replaces the
earlier value. -/
def replay (env : String → Option String) : List (String × String) → String → Option String
  | [] => env
  | (key, value) :: ws => replay (fun x => if x = key then some value else env x) ws

/-- The value of the last write to `key` in a list of writes, if any. -/
def lastWrite (key : String) : List (String × String) → Option String
  | [] => none
  | (k, v) :: ws =>
    match lastWrite key ws with
    | some x => some x
    | none => if k = key then some v else none

/-- The log `l2` is the log `l1` followed by entries that all satisfy `P`. -/
def Extends (P : Event → Prop) (l1 l2 : List Event) : Prop :=
  ∃ evs, l2 = l1 ++ evs ∧ ∀ ev ∈ evs, P ev

/-- The `SetEnvironment` writes on session `name` that a call log holds, in
the order they were issued, each as (key, value). -/
def sessionWrites (name : String) (log : List Event) : List (String × String) :=
  (setEnvCalls log).filterMap fun c => if c.1 = name then some c.2 else none

/-- Lines 91-174 of `Start`, what follows the liveness check: the town root,
then the parts `launch`, `configure` and `await` as `Start` chains them. -/
def Manager.Start.afterLiveness (d : Deps σ) (m : Manager) (agentOverride : String)
    (envOverrides : List String) (r : Run σ) : Option GoError × Run σ :=
  let tr := m.townRoot d r
  let ln := Manager.Start.launch d m tr.1 agentOverride tr.2
  match ln.1 with
  | some err => (some err, ln.2)
  | none =>
    Manager.Start.await d m tr.1 (Manager.Start.configure d m tr.1 envOverrides ln.2)

/-- The same collaborators, except that `HasSession` returns the boolean it
would have returned together with a nil error. -/
def Deps.withoutHasSessionError (d : Deps σ) : Deps σ :=
  { d with HasSession := fun name w => ((d.HasSession name w).1, none) }

/-- A result whose log is put after the entries `l`. -/
def Run.onto {α : Type} (l : List Event) (out : α × Run σ) : α × Run σ :=
  (out.1, { st := out.2.st, log := l ++ out.2.log })

/-- A run whose log is put after the entries `l`. -/
def Run.after (l : List Event) (r : Run σ) : Run σ :=
  { st := r.st, log := l ++ r.log }

/-- The calls of a log, without the errors they returned. -/
def callsOf (log : List Event) : List Call := log.map Event.call

/-! ## Concrete scenarios -/

/-- The manager of a rig named `a` rooted at `/r`; its session is
`gt-a-architect`. -/
def demoManager : Manager := NewManager { Name := "a", Path := "/r" }

/-- A session table without the architect session. -/
def absentTable : Sim := { table := [] }

/-- A session table in which the architect session exists and hosts a live
agent. -/
def healthyTable : Sim :=
  { table := [{ name := "gt-a-architect", agentAlive := true, env := [] }] }

/-- A session table in which the architect session exists but its agent is
gone. -/
def zombieTable : Sim :=
  { table := [{ name := "gt-a-architect", agentAlive := false, env := [] }] }

/-- The driver cannot kill sessions. -/
def killFails : Faults :=
  { Faults.none with killSession := some (GoError.external "kill failed") }

/-- The agent never shows up and the cleanup kill fails as well. -/
def waitAndCleanupFail : Faults :=
  { Faults.none with
    waitForCommand := some (GoError.external "timeout waiting for command")
    killSessionWithProcesses := some (GoError.external "kill failed") }

/-- The agent never shows up; the cleanup kill works. -/
def waitFails : Faults :=
  { Faults.none with waitForCommand := some (GoError.external "timeout waiting for command") }

/-- The driver cannot answer the session-existence check. -/
def hasSessionFails : Faults :=
  { Faults.none with hasSession := some (GoError.external "no server running") }

/-! ## Lemmas -/

@[simp] theorem Run.read_fst {α : Type} (r : Run σ) (c : Call) (res : α) (err : Option GoError) :
    (r.read c res err).1 = res := rfl

@[simp] theorem Run.read_st {α : Type} (r : Run σ) (c : Call) (res : α) (err : Option GoError) :
    (r.read c res err).2.st = r.st := rfl

@[simp] theorem Run.read_log {α : Type} (r : Run σ) (c : Call) (res : α) (err : Option GoError) :
    (r.read c res err).2.log = r.log ++ [{ call := c, err := err }] := rfl

@[simp] theorem Run.exec_fst (r : Run σ) (c : Call) (res : Option GoError × σ) :
    (r.exec c res).1 = res.1 := rfl

@[simp] theorem Run.exec_st (r : Run σ) (c : Call) (res : Option GoError × σ) :
    (r.exec c res).2.st = res.2 := rfl

@[simp] theorem Run.exec_log (r : Run σ) (c : Call) (res : Option GoError × σ) :
    (r.exec c res).2.log = r.log ++ [{ call := c, err := res.1 }] := rfl

theorem Sprintf_session (name : String) :
    Sprintf "gt-%s-architect" [name] = "gt-" ++ name ++ "-architect" := by
  apply String.ext
  simp [Sprintf, Sprintf.go]

/-- The liveness check of `Start` in closed form. -/
theorem liveness_eq (d : Deps σ) (m : Manager) (r : Run σ) :
    Manager.Start.liveness d m r =
      if (d.HasSession m.SessionName r.st).1 then
        if d.IsAgentAlive m.SessionName r.st then
          (some ErrAlreadyRunning,
            { st := r.st
              log := r.log ++ [{ call := Call.HasSession m.SessionName,
                                 err := (d.HasSession m.SessionName r.st).2 },
                               { call := Call.IsAgentAlive m.SessionName, err := none }] })
        else
          ((d.KillSession m.SessionName r.st).1.map (Errorf "killing zombie session: %w"),
            { st := (d.KillSession m.SessionName r.st).2
              log := r.log ++ [{ call := Call.HasSession m.SessionName,
                                 err := (d.HasSession m.SessionName r.st).2 },
                               { call := Call.IsAgentAlive m.SessionName, err := none },
                               { call := Call.KillSession m.SessionName,
                                 err := (d.KillSession m.SessionName r.st).1 }] })
      else
        (none,
          { st := r.st
            log := r.log ++ [{ call := Call.HasSession m.SessionName,
                               err := (d.HasSession m.SessionName r.st).2 }] }) := by
  unfold Manager.Start.liveness
  by_cases h1 : (d.HasSession m.SessionName r.st).1 = true
  · by_cases h2 : d.IsAgentAlive m.SessionName r.st = true
    · simp [h1, h2, Run.read]
    · cases hk : (d.KillSession m.SessionName r.st).1 <;>
        simp [h1, h2, hk, Run.read, Run.exec]
  · simp [h1, Run.read]

/-- `Stop` in closed form. -/
theorem Stop_eq (d : Deps σ) (m : Manager) (r : Run σ) :
    Manager.Stop d m r =
      if (d.HasSession m.SessionName r.st).1 then
        ((d.KillSession m.SessionName r.st).1,
          { st := (d.KillSession m.SessionName r.st).2
            log := r.log ++ [{ call := Call.HasSession m.SessionName,
                               err := (d.HasSession m.SessionName r.st).2 },
                             { call := Call.KillSession m.SessionName,
                               err := (d.KillSession m.SessionName r.st).1 }] })
      else
        (some ErrNotRunning,
          { st := r.st
            log := r.log ++ [{ call := Call.HasSession m.SessionName,
                               err := (d.HasSession m.SessionName r.st).2 }] }) := by
  unfold Manager.Stop
  by_cases h1 : (d.HasSession m.SessionName r.st).1 = true
  · simp [h1, Run.read, Run.exec]
  · simp [h1, Run.read]


theorem Extends.refl (P : Event → Prop) (l : List Event) : Extends P l l :=
  ⟨[], by simp, by simp⟩

theorem Extends.step {P : Event → Prop} {l1 l2 : List Event} (h : Extends P l1 l2)
    (ev : Event) (hev : P ev) : Extends P l1 (l2 ++ [ev]) := by
  obtain ⟨evs, rfl, hP⟩ := h
  refine ⟨evs ++ [ev], by simp, ?_⟩
  intro e he
  rcases List.mem_append.1 he with h1 | h1
  · exact hP e h1
  · simp at h1; subst h1; exact hev

theorem Extends.trans {P : Event → Prop} {l1 l2 l3 : List Event} (h12 : Extends P l1 l2)
    (h23 : Extends P l2 l3) : Extends P l1 l3 := by
  obtain ⟨e1, rfl, hP1⟩ := h12
  obtain ⟨e2, rfl, hP2⟩ := h23
  refine ⟨e1 ++ e2, by simp, ?_⟩
  intro e he
  rcases List.mem_append.1 he with h1 | h1
  · exact hP1 e h1
  · exact hP2 e h1

theorem Extends.mono {P Q : Event → Prop} {l1 l2 : List Event} (h : Extends P l1 l2)
    (hPQ : ∀ ev, P ev → Q ev) : Extends Q l1 l2 := by
  obtain ⟨evs, rfl, hP⟩ := h
  exact ⟨evs, rfl, fun ev hev => hPQ ev (hP ev hev)⟩

theorem Extends.mem {P : Event → Prop} {l1 l2 : List Event} (h : Extends P l1 l2)
    {ev : Event} (hev : ev ∈ l2) : ev ∈ l1 ∨ P ev := by
  obtain ⟨evs, rfl, hP⟩ := h
  rcases List.mem_append.1 hev with h1 | h1
  · exact Or.inl h1
  · exact Or.inr (hP ev h1)

theorem ensureAgentBead_log (d : Deps σ) (m : Manager) (townRoot : String) (r : Run σ) :
    Extends (fun ev => ev.call.stage = 1 ∧ ev.created = false)
      r.log (m.ensureAgentBead d townRoot r).2.log := by
  unfold Manager.ensureAgentBead
  simp only
  split
  · exact (Extends.refl _ _).step _ ⟨rfl, rfl⟩
  · exact ((Extends.refl _ _).step _ ⟨rfl, rfl⟩).step _ ⟨rfl, rfl⟩

theorem last_mem (l : List Event) (ev : Event) : ev ∈ l ++ [ev] :=
  List.mem_append_right _ (List.mem_singleton_self _)

theorem create_log (d : Deps σ) (m : Manager) (command : String) (r : Run σ) :
    Extends (fun ev => ev.call.stage = 1)
      r.log (Manager.Start.create d m command r).2.log := by
  unfold Manager.Start.create
  simp only
  split <;> exact (Extends.refl _ _).step _ rfl

theorem create_fail (d : Deps σ) (m : Manager) (command : String) (r : Run σ)
    (h : (Manager.Start.create d m command r).1 ≠ none) :
    Extends (fun ev => ev.call.stage = 1 ∧ ev.created = false)
        r.log (Manager.Start.create d m command r).2.log ∧
      ∃ ev ∈ (Manager.Start.create d m command r).2.log,
        ev.call.isFatalStep = true ∧ ev.err ≠ none := by
  revert h
  unfold Manager.Start.create
  simp only
  split
  · rename_i err heq
    intro _
    simp only [Run.exec_fst] at heq
    refine ⟨(Extends.refl _ _).step _ ⟨rfl, ?_⟩, _, last_mem _ _, rfl, ?_⟩
    · simp [Event.created, heq]
    · exact fun h2 => Option.noConfusion (heq.symm.trans h2)
  · intro h
    exact absurd rfl h

theorem launch_log (d : Deps σ) (m : Manager) (townRoot agentOverride : String) (r : Run σ) :
    Extends (fun ev => ev.call.stage = 1)
      r.log (Manager.Start.launch d m townRoot agentOverride r).2.log := by
  have hb := (ensureAgentBead_log d m townRoot r).mono (Q := fun ev => ev.call.stage = 1)
    (fun ev h => h.1)
  unfold Manager.Start.launch
  simp only
  split
  · exact hb.step _ rfl
  · split
    · split
      · refine Extends.step (Extends.step (Extends.step hb _ ?_) _ ?_) _ ?_ <;> rfl
      · refine Extends.trans ?_ (create_log d m _ _)
        refine Extends.step (Extends.step (Extends.step hb _ ?_) _ ?_) _ ?_ <;> rfl
    · refine Extends.trans ?_ (create_log d m _ _)
      refine Extends.step (Extends.step hb _ ?_) _ ?_ <;> rfl

theorem launch_fail (d : Deps σ) (m : Manager) (townRoot agentOverride : String) (r : Run σ)
    (h : (Manager.Start.launch d m townRoot agentOverride r).1 ≠ none) :
    Extends (fun ev => ev.call.stage = 1 ∧ ev.created = false)
        r.log (Manager.Start.launch d m townRoot agentOverride r).2.log ∧
      ∃ ev ∈ (Manager.Start.launch d m townRoot agentOverride r).2.log,
        ev.call.isFatalStep = true ∧ ev.err ≠ none := by
  have hb := ensureAgentBead_log d m townRoot r
  revert h
  unfold Manager.Start.launch
  simp only
  split
  · rename_i err heq
    intro _
    simp only [Run.exec_fst] at heq
    refine ⟨hb.step _ ⟨rfl, rfl⟩, _, last_mem _ _, rfl, ?_⟩
    exact fun h2 => Option.noConfusion (heq.symm.trans h2)
  · split
    · split
      · rename_i err heq
        intro _
        refine ⟨Extends.step (Extends.step (Extends.step hb _ ?_) _ ?_) _ ?_,
          _, last_mem _ _, rfl, ?_⟩
        · exact ⟨rfl, rfl⟩
        · exact ⟨rfl, rfl⟩
        · exact ⟨rfl, rfl⟩
        · exact fun h2 => Option.noConfusion (heq.symm.trans h2)
      · intro h
        obtain ⟨h1, h2⟩ := create_fail d m _ _ h
        refine ⟨Extends.trans ?_ h1, h2⟩
        refine Extends.step (Extends.step (Extends.step hb _ ?_) _ ?_) _ ?_ <;> exact ⟨rfl, rfl⟩
    · intro h
      obtain ⟨h1, h2⟩ := create_fail d m _ _ h
      refine ⟨Extends.trans ?_ h1, h2⟩
      refine Extends.step (Extends.step hb _ ?_) _ ?_ <;> exact ⟨rfl, rfl⟩


/-! ### `strings.Cut` on the separator `=` -/

theorem Index_go_eq (cs : List Char) (i : Nat) :
    Index.go ['='] cs i =
      if '=' ∈ cs then ((i + (cs.takeWhile (fun c => c != '=')).length : Nat) : Int) else -1 := by
  induction cs generalizing i with
  | nil => simp [Index.go]
  | cons c cs ih =>
    by_cases hc : c = '='
    · subst hc
      simp [Index.go, List.isPrefixOf]
    · have hc2 : ¬ ('=' = c) := fun h => hc h.symm
      have hc3 : (c != '=') = true := by simp [hc]
      simp only [Index.go, List.isPrefixOf, ih, List.takeWhile_cons, hc3, if_true, List.mem_cons,
        hc2, false_or, List.length_cons]
      simp [hc2]
      split
      · omega
      · rfl

theorem take_takeWhile_length (p : Char → Bool) (cs : List Char) :
    cs.take (cs.takeWhile p).length = cs.takeWhile p := by
  induction cs with
  | nil => simp
  | cons c cs ih =>
    by_cases h : p c <;> simp [List.takeWhile, h, ih]

theorem drop_takeWhile_length (p : Char → Bool) (cs : List Char) :
    cs.drop (cs.takeWhile p).length = cs.dropWhile p := by
  induction cs with
  | nil => simp
  | cons c cs ih =>
    by_cases h : p c <;> simp [List.takeWhile, List.dropWhile, h, ih]

/-- On the separator `=`, `Cut` splits at the first `=`. -/
theorem Cut_eq (s : String) :
    Cut s "=" =
      if '=' ∈ s.data then
        (⟨s.data.takeWhile (fun c => c != '=')⟩,
         ⟨(s.data.dropWhile (fun c => c != '=')).drop 1⟩, true)
      else (s, "", false) := by
  have hd : ("=" : String).data = ['='] := rfl
  have hl : ("=" : String).length = 1 := rfl
  unfold Cut Index
  simp only [hd, hl, Index_go_eq]
  by_cases h : '=' ∈ s.data
  · simp only [h, if_true]
    simp only [Nat.zero_add, Int.toNat_ofNat, take_takeWhile_length, ← List.drop_drop,
      drop_takeWhile_length]
    simp
  · simp [h]

/-! ### The environment loops -/

theorem setEnvCalls_append (l1 l2 : List Event) :
    setEnvCalls (l1 ++ l2) = setEnvCalls l1 ++ setEnvCalls l2 := by
  simp [setEnvCalls, List.filterMap_append]

theorem setEnvCalls_of_stage (evs : List Event) (h : ∀ ev ∈ evs, ev.call.stage ≠ 2) :
    setEnvCalls evs = [] := by
  induction evs with
  | nil => rfl
  | cons ev evs ih =>
    have h1 := h ev (List.mem_cons_self _ _)
    have h2 := ih (fun e he => h e (List.mem_cons_of_mem _ he))
    have hnone : (match ev.call with
        | Call.SetEnvironment name key value => some (name, key, value)
        | _ => none) = none := by
      obtain ⟨c, e⟩ := ev
      cases c <;> first | rfl | exact absurd rfl h1
    unfold setEnvCalls at h2 ⊢
    rw [List.filterMap_cons, hnone]
    exact h2

theorem setDefaults_calls (d : Deps σ) (sessionID : String) (envVars : List (String × String))
    (r : Run σ) :
    setEnvCalls (Manager.Start.setDefaults d sessionID envVars r).log =
      setEnvCalls r.log ++ envVars.map (fun kv => (sessionID, kv.1, kv.2)) := by
  induction envVars generalizing r with
  | nil => simp [Manager.Start.setDefaults]
  | cons kv rest ih =>
    obtain ⟨k, v⟩ := kv
    simp only [Manager.Start.setDefaults, ih, Run.exec_log, setEnvCalls_append, List.map_cons]
    simp [setEnvCalls]

theorem setDefaults_log (d : Deps σ) (sessionID : String) (envVars : List (String × String))
    (r : Run σ) :
    Extends (fun ev => ev.call.stage = 2) r.log
      (Manager.Start.setDefaults d sessionID envVars r).log := by
  induction envVars generalizing r with
  | nil => exact Extends.refl _ _
  | cons kv rest ih =>
    obtain ⟨k, v⟩ := kv
    refine Extends.trans (Extends.step (Extends.refl _ _) _ ?_) (ih _)
    rfl

theorem specOverrideWrites_cons (o : String) (rest : List String) :
    specOverrideWrites (o :: rest) =
      if '=' ∈ o.data then
        (⟨o.data.takeWhile (fun c => c != '=')⟩,
          ⟨(o.data.dropWhile (fun c => c != '=')).drop 1⟩) :: specOverrideWrites rest
      else specOverrideWrites rest := by
  unfold specOverrideWrites
  rw [List.filterMap_cons]
  by_cases h : '=' ∈ o.data <;> simp [h]

theorem applyOverrides_calls (d : Deps σ) (sessionID : String) (envOverrides : List String)
    (r : Run σ) :
    setEnvCalls (Manager.Start.applyOverrides d sessionID envOverrides r).log =
      setEnvCalls r.log ++
        (specOverrideWrites envOverrides).map (fun kv => (sessionID, kv.1, kv.2)) := by
  induction envOverrides generalizing r with
  | nil => simp [Manager.Start.applyOverrides, specOverrideWrites]
  | cons o rest ih =>
    unfold Manager.Start.applyOverrides
    simp only [Cut_eq]
    by_cases h : '=' ∈ o.data
    · simp only [h, if_true, ih, Run.exec_log, setEnvCalls_append, specOverrideWrites_cons,
        List.map_cons]
      simp [setEnvCalls]
    · simp only [h, if_false, specOverrideWrites_cons, Bool.false_eq_true]
      exact ih r

theorem applyOverrides_log (d : Deps σ) (sessionID : String) (envOverrides : List String)
    (r : Run σ) :
    Extends (fun ev => ev.call.stage = 2) r.log
      (Manager.Start.applyOverrides d sessionID envOverrides r).log := by
  induction envOverrides generalizing r with
  | nil => exact Extends.refl _ _
  | cons o rest ih =>
    unfold Manager.Start.applyOverrides
    simp only
    split
    · refine Extends.trans (Extends.step (Extends.refl _ _) _ ?_) (ih _)
      rfl
    · exact ih _

theorem configure_calls (d : Deps σ) (m : Manager) (townRoot : String)
    (envOverrides : List String) (r : Run σ) :
    setEnvCalls (Manager.Start.configure d m townRoot envOverrides r).log =
      setEnvCalls r.log ++
        (d.AgentEnv { Role := "architect", Rig := m.rig.Name, TownRoot := townRoot } r.st).map
          (fun kv => (m.SessionName, kv.1, kv.2)) ++
        (specOverrideWrites envOverrides).map (fun kv => (m.SessionName, kv.1, kv.2)) := by
  unfold Manager.Start.configure
  simp only [Run.exec_log, setEnvCalls_append, applyOverrides_calls, setDefaults_calls]
  simp [setEnvCalls]

theorem configure_log (d : Deps σ) (m : Manager) (townRoot : String)
    (envOverrides : List String) (r : Run σ) :
    Extends (fun ev => ev.call.stage = 2) r.log
      (Manager.Start.configure d m townRoot envOverrides r).log := by
  unfold Manager.Start.configure
  exact Extends.step (Extends.trans (setDefaults_log d _ _ _) (applyOverrides_log d _ _ _)) _ rfl


/-! ### The wait and the finishing steps -/

theorem await_fail (d : Deps σ) (m : Manager) (townRoot : String) (r : Run σ) (e : GoError)
    (h : (d.WaitForCommand m.SessionName d.SupportedShells d.ClaudeStartTimeout r.st).1 = some e) :
    Manager.Start.await d m townRoot r =
      (some (Errorf "waiting for architect to start: %w" e),
        { st := (d.KillSessionWithProcesses m.SessionName
            (d.WaitForCommand m.SessionName d.SupportedShells d.ClaudeStartTimeout r.st).2).2
          log := r.log ++
            [{ call := Call.WaitForCommand m.SessionName d.SupportedShells d.ClaudeStartTimeout,
               err := some e },
             { call := Call.KillSessionWithProcesses m.SessionName,
               err := (d.KillSessionWithProcesses m.SessionName
                 (d.WaitForCommand m.SessionName d.SupportedShells d.ClaudeStartTimeout
                   r.st).2).1 }] }) := by
  unfold Manager.Start.await
  simp [Run.exec, h]

theorem await_ok (d : Deps σ) (m : Manager) (townRoot : String) (r : Run σ)
    (h : (d.WaitForCommand m.SessionName d.SupportedShells d.ClaudeStartTimeout r.st).1 = none) :
    Manager.Start.await d m townRoot r =
      (none,
        { st := d.Sleep d.ShutdownNotifyDelay
            (d.TrackSessionPID townRoot m.SessionName
              (d.AcceptBypassPermissionsWarning m.SessionName
                (d.WaitForCommand m.SessionName d.SupportedShells d.ClaudeStartTimeout
                  r.st).2).2).2
          log := r.log ++
            [{ call := Call.WaitForCommand m.SessionName d.SupportedShells d.ClaudeStartTimeout,
               err := none },
             { call := Call.AcceptBypassPermissionsWarning m.SessionName,
               err := (d.AcceptBypassPermissionsWarning m.SessionName
                 (d.WaitForCommand m.SessionName d.SupportedShells d.ClaudeStartTimeout
                   r.st).2).1 },
             { call := Call.TrackSessionPID townRoot m.SessionName,
               err := (d.TrackSessionPID townRoot m.SessionName
                 (d.AcceptBypassPermissionsWarning m.SessionName
                   (d.WaitForCommand m.SessionName d.SupportedShells d.ClaudeStartTimeout
                     r.st).2).2).1 },
             { call := Call.Sleep d.ShutdownNotifyDelay, err := none }] }) := by
  unfold Manager.Start.await
  simp [Run.exec, h]

theorem await_log (d : Deps σ) (m : Manager) (townRoot : String) (r : Run σ) :
    Extends (fun ev => ev.call.stage = 3) r.log (Manager.Start.await d m townRoot r).2.log := by
  cases h : (d.WaitForCommand m.SessionName d.SupportedShells d.ClaudeStartTimeout r.st).1 with
  | none =>
    rw [await_ok d m townRoot r h]
    exact ⟨_, rfl, by simp [Call.stage]⟩
  | some e =>
    rw [await_fail d m townRoot r e h]
    exact ⟨_, rfl, by simp [Call.stage]⟩

/-! ### The shape of a run of `Start` -/

theorem liveness_log (d : Deps σ) (m : Manager) (r : Run σ) :
    Extends (fun ev => ev.call.stage = 0) r.log (Manager.Start.liveness d m r).2.log := by
  rw [liveness_eq]
  split
  · split
    · exact ⟨_, rfl, by simp [Call.stage]⟩
    · exact ⟨_, rfl, by simp [Call.stage]⟩
  · exact ⟨_, rfl, by simp [Call.stage]⟩

theorem created_stage (ev : Event) (h : ev.created = true) : ev.call.stage = 1 := by
  obtain ⟨c, e⟩ := ev
  cases c <;> first | rfl | exact absurd h (by simp [Event.created])

theorem townRoot_log (d : Deps σ) (m : Manager) (r : Run σ) :
    Extends (fun ev => ev.call.stage = 1 ∧ ev.created = false) r.log (m.townRoot d r).2.log := by
  unfold Manager.townRoot
  simp only
  split
  · refine Extends.step (Extends.refl _ _) _ ?_
    exact ⟨rfl, rfl⟩
  · refine Extends.step (Extends.refl _ _) _ ?_
    exact ⟨rfl, rfl⟩

/-- A run of `Start` either returns an error before the session is created,
having issued only calls of the first two parts and no successful creation,
or it goes through the environment part and ends in the wait part. -/
theorem Start_shape (d : Deps σ) (m : Manager) (agentOverride : String)
    (envOverrides : List String) (r : Run σ) :
    ((Manager.Start d m agentOverride envOverrides r).1 ≠ none ∧
      Extends (fun ev => ev.call.stage ≤ 1 ∧ ev.created = false) r.log
        (Manager.Start d m agentOverride envOverrides r).2.log ∧
      ((Manager.Start.liveness d m r).1 = (Manager.Start d m agentOverride envOverrides r).1 ∨
        ∃ ev ∈ (Manager.Start d m agentOverride envOverrides r).2.log,
          ev.call.isFatalStep = true ∧ ev.err ≠ none)) ∨
    (∃ townRoot r2, Extends (fun ev => ev.call.stage ≤ 1) r.log r2.log ∧
      (Manager.Start.liveness d m r).1 = none ∧
      Manager.Start d m agentOverride envOverrides r =
        Manager.Start.await d m townRoot
          (Manager.Start.configure d m townRoot envOverrides r2)) := by
  have hl0 := liveness_log d m r
  have hl : Extends (fun ev => ev.call.stage ≤ 1 ∧ ev.created = false) r.log
      (Manager.Start.liveness d m r).2.log :=
    hl0.mono (fun ev h => ⟨by omega, by
      cases hc : ev.created
      · rfl
      · have := created_stage ev hc
        omega⟩)
  have ht : Extends (fun ev => ev.call.stage ≤ 1 ∧ ev.created = false) r.log
      (m.townRoot d (Manager.Start.liveness d m r).2).2.log :=
    hl.trans ((townRoot_log d m _).mono (fun ev h => ⟨by omega, h.2⟩))
  unfold Manager.Start
  simp only
  split
  · rename_i err heq
    left
    exact ⟨by simp, hl, Or.inl heq⟩
  · rename_i heq
    split
    · rename_i err heq2
      left
      have hne : (Manager.Start.launch d m (m.townRoot d (Manager.Start.liveness d m r).2).1
          agentOverride (m.townRoot d (Manager.Start.liveness d m r).2).2).1 ≠ none := by
        rw [heq2]; simp
      obtain ⟨h1, h2⟩ := launch_fail d m _ _ _ hne
      exact ⟨by simp, ht.trans (h1.mono (fun ev h => ⟨by omega, h.2⟩)), Or.inr h2⟩
    · right
      refine ⟨_, _, ?_, heq, rfl⟩
      exact (ht.mono (fun ev h => h.1)).trans
        ((launch_log d m _ _ _).mono (fun ev h => by omega))


/-! ### Replaying writes -/

theorem replay_eq (env : String → Option String) (ws : List (String × String)) (key : String) :
    replay env ws key =
      match lastWrite key ws with
      | some v => some v
      | none => env key := by
  induction ws generalizing env with
  | nil => rfl
  | cons kv ws ih =>
    obtain ⟨k, v⟩ := kv
    simp only [replay, lastWrite, ih]
    cases lastWrite key ws with
    | some x => rfl
    | none =>
      by_cases h : k = key
      · subst h; simp
      · have h2 : ¬ key = k := fun h3 => h h3.symm
        simp [h, h2]

theorem lastWrite_append (key : String) (a b : List (String × String)) :
    lastWrite key (a ++ b) =
      match lastWrite key b with
      | some v => some v
      | none => lastWrite key a := by
  induction a with
  | nil =>
    rw [List.nil_append]
    cases lastWrite key b <;> rfl
  | cons kv a ih =>
    obtain ⟨k, v⟩ := kv
    rw [List.cons_append, lastWrite, ih]
    cases lastWrite key b with
    | some x => rfl
    | none => simp only [lastWrite]

theorem lastWrite_none_of_not_mem (key : String) (ws : List (String × String))
    (h : key ∉ ws.map Prod.fst) : lastWrite key ws = none := by
  induction ws with
  | nil => rfl
  | cons kv ws ih =>
    obtain ⟨k, v⟩ := kv
    simp only [List.map_cons, List.mem_cons, not_or] at h
    have h2 : ¬ k = key := fun h3 => h.1 h3.symm
    simp [lastWrite, ih h.2, h2]

theorem lastWrite_eq_lookup (key : String) (ws : List (String × String))
    (h : (ws.map Prod.fst).Nodup) : lastWrite key ws = ws.lookup key := by
  induction ws with
  | nil => rfl
  | cons kv ws ih =>
    obtain ⟨k, v⟩ := kv
    simp only [List.map_cons, List.nodup_cons] at h
    by_cases hk : k = key
    · subst hk
      simp [lastWrite, lastWrite_none_of_not_mem k ws h.1, List.lookup]
    · have h2 : (key == k) = false := by
        simp only [beq_eq_false_iff_ne, ne_eq]
        exact fun h3 => hk h3.symm
      simp only [lastWrite, ih h.2, hk, if_false, List.lookup, h2]
      cases List.lookup key ws <;> rfl

theorem sessionWrites_map (name : String) (ws : List (String × String)) :
    (ws.map (fun kv => (name, kv.1, kv.2))).filterMap
      (fun c => if c.1 = name then some c.2 else none) = ws := by
  induction ws with
  | nil => rfl
  | cons kv ws ih => simp [List.filterMap_cons, ih]


/-! ### Results do not depend on the log already written -/

theorem townRoot_frame (d : Deps σ) (m : Manager) (r : Run σ) :
    m.townRoot d r = Run.onto r.log (m.townRoot d { st := r.st, log := [] }) := by
  unfold Manager.townRoot
  simp only [Run.read]
  split <;> simp [Run.onto]

theorem ensureAgentBead_frame (d : Deps σ) (m : Manager) (townRoot : String) (r : Run σ) :
    m.ensureAgentBead d townRoot r =
      Run.onto r.log (m.ensureAgentBead d townRoot { st := r.st, log := [] }) := by
  unfold Manager.ensureAgentBead
  simp only [Run.read, Run.exec]
  split <;> simp [Run.onto]

theorem create_frame (d : Deps σ) (m : Manager) (command : String) (r : Run σ) :
    Manager.Start.create d m command r =
      Run.onto r.log (Manager.Start.create d m command { st := r.st, log := [] }) := by
  unfold Manager.Start.create
  simp only [Run.exec]
  split <;> simp [Run.onto]

theorem launch_frame (d : Deps σ) (m : Manager) (townRoot agentOverride : String) (r : Run σ) :
    Manager.Start.launch d m townRoot agentOverride r =
      Run.onto r.log (Manager.Start.launch d m townRoot agentOverride
        { st := r.st, log := [] }) := by
  unfold Manager.Start.launch
  rw [ensureAgentBead_frame d m townRoot r]
  simp only [Run.read, Run.exec, Run.onto]
  split
  · simp
  · split
    · split
      · simp
      · rw [create_frame]
        conv_rhs => rw [create_frame]
        simp [Run.onto]
    · rw [create_frame]
      conv_rhs => rw [create_frame]
      simp [Run.onto]

theorem setDefaults_frame (d : Deps σ) (sessionID : String) (envVars : List (String × String))
    (r : Run σ) :
    Manager.Start.setDefaults d sessionID envVars r =
      Run.after r.log (Manager.Start.setDefaults d sessionID envVars
        { st := r.st, log := [] }) := by
  induction envVars generalizing r with
  | nil => simp [Manager.Start.setDefaults, Run.after]
  | cons kv rest ih =>
    obtain ⟨k, v⟩ := kv
    simp only [Manager.Start.setDefaults]
    rw [ih]
    conv_rhs => rw [ih]
    simp [Run.after, Run.exec]

theorem applyOverrides_frame (d : Deps σ) (sessionID : String) (envOverrides : List String)
    (r : Run σ) :
    Manager.Start.applyOverrides d sessionID envOverrides r =
      Run.after r.log (Manager.Start.applyOverrides d sessionID envOverrides
        { st := r.st, log := [] }) := by
  induction envOverrides generalizing r with
  | nil => simp [Manager.Start.applyOverrides, Run.after]
  | cons o rest ih =>
    simp only [Manager.Start.applyOverrides]
    split
    · rw [ih]
      conv_rhs => rw [ih]
      simp [Run.after, Run.exec]
    · exact ih r

theorem configure_frame (d : Deps σ) (m : Manager) (townRoot : String)
    (envOverrides : List String) (r : Run σ) :
    Manager.Start.configure d m townRoot envOverrides r =
      Run.after r.log (Manager.Start.configure d m townRoot envOverrides
        { st := r.st, log := [] }) := by
  unfold Manager.Start.configure
  simp only
  rw [setDefaults_frame d _ _ r, applyOverrides_frame]
  conv_rhs => rw [applyOverrides_frame]
  simp [Run.after, Run.exec]

theorem await_frame (d : Deps σ) (m : Manager) (townRoot : String) (r : Run σ) :
    Manager.Start.await d m townRoot r =
      Run.onto r.log (Manager.Start.await d m townRoot { st := r.st, log := [] }) := by
  unfold Manager.Start.await
  simp only [Run.exec]
  split <;> simp [Run.onto]

theorem afterLiveness_frame (d : Deps σ) (m : Manager) (agentOverride : String)
    (envOverrides : List String) (r : Run σ) :
    Manager.Start.afterLiveness d m agentOverride envOverrides r =
      Run.onto r.log (Manager.Start.afterLiveness d m agentOverride envOverrides
        { st := r.st, log := [] }) := by
  unfold Manager.Start.afterLiveness
  simp only
  rw [townRoot_frame d m r]
  simp only [Run.onto]
  generalize m.townRoot d { st := r.st, log := [] } = tr0
  rw [launch_frame d m tr0.1 agentOverride { st := tr0.2.st, log := r.log ++ tr0.2.log },
    launch_frame d m tr0.1 agentOverride tr0.2]
  simp only [Run.onto]
  generalize Manager.Start.launch d m tr0.1 agentOverride { st := tr0.2.st, log := [] } = ln0
  cases h : ln0.1 with
  | some err => simp
  | none =>
    simp only
    rw [configure_frame d m tr0.1 envOverrides
        { st := ln0.2.st, log := r.log ++ tr0.2.log ++ ln0.2.log },
      configure_frame d m tr0.1 envOverrides { st := ln0.2.st, log := tr0.2.log ++ ln0.2.log }]
    simp only [Run.after]
    generalize Manager.Start.configure d m tr0.1 envOverrides { st := ln0.2.st, log := [] } = cf0
    rw [await_frame d m tr0.1 { st := cf0.st, log := r.log ++ tr0.2.log ++ ln0.2.log ++ cf0.log },
      await_frame d m tr0.1 { st := cf0.st, log := tr0.2.log ++ ln0.2.log ++ cf0.log }]
    simp [Run.onto]

/-! ### Dropping the error of the session-existence check -/

theorem Start_unfold (d : Deps σ) (m : Manager) (agentOverride : String)
    (envOverrides : List String) (r : Run σ) :
    Manager.Start d m agentOverride envOverrides r =
      match (Manager.Start.liveness d m r).1 with
      | some err => (some err, (Manager.Start.liveness d m r).2)
      | none =>
        Manager.Start.afterLiveness d m agentOverride envOverrides
          (Manager.Start.liveness d m r).2 := rfl

theorem withoutHasSessionError_HasSession (d : Deps σ) (name : String) (w : σ) :
    d.withoutHasSessionError.HasSession name w = ((d.HasSession name w).1, none) := rfl

theorem withoutHasSessionError_IsAgentAlive (d : Deps σ) :
    d.withoutHasSessionError.IsAgentAlive = d.IsAgentAlive := rfl

theorem withoutHasSessionError_KillSession (d : Deps σ) :
    d.withoutHasSessionError.KillSession = d.KillSession := rfl

theorem setDefaults_withoutHasSessionError (d : Deps σ) (sessionID : String)
    (envVars : List (String × String)) (r : Run σ) :
    Manager.Start.setDefaults d.withoutHasSessionError sessionID envVars r =
      Manager.Start.setDefaults d sessionID envVars r := by
  induction envVars generalizing r with
  | nil => rfl
  | cons kv rest ih =>
    obtain ⟨k, v⟩ := kv
    simp only [Manager.Start.setDefaults]
    exact ih _

theorem applyOverrides_withoutHasSessionError (d : Deps σ) (sessionID : String)
    (envOverrides : List String) (r : Run σ) :
    Manager.Start.applyOverrides d.withoutHasSessionError sessionID envOverrides r =
      Manager.Start.applyOverrides d sessionID envOverrides r := by
  induction envOverrides generalizing r with
  | nil => rfl
  | cons o rest ih =>
    simp only [Manager.Start.applyOverrides]
    split
    · exact ih _
    · exact ih _

theorem configure_withoutHasSessionError (d : Deps σ) (m : Manager) (townRoot : String)
    (envOverrides : List String) (r : Run σ) :
    Manager.Start.configure d.withoutHasSessionError m townRoot envOverrides r =
      Manager.Start.configure d m townRoot envOverrides r := by
  unfold Manager.Start.configure
  simp only [setDefaults_withoutHasSessionError, applyOverrides_withoutHasSessionError]
  rfl

theorem afterLiveness_withoutHasSessionError (d : Deps σ) (m : Manager) (agentOverride : String)
    (envOverrides : List String) (r : Run σ) :
    Manager.Start.afterLiveness d.withoutHasSessionError m agentOverride envOverrides r =
      Manager.Start.afterLiveness d m agentOverride envOverrides r := by
  have ht : m.townRoot d.withoutHasSessionError r = m.townRoot d r := rfl
  have hl : ∀ tr r2, Manager.Start.launch d.withoutHasSessionError m tr agentOverride r2 =
      Manager.Start.launch d m tr agentOverride r2 := fun _ _ => rfl
  have ha : ∀ tr r2, Manager.Start.await d.withoutHasSessionError m tr r2 =
      Manager.Start.await d m tr r2 := fun _ _ => rfl
  unfold Manager.Start.afterLiveness
  simp only [ht, hl, ha, configure_withoutHasSessionError]

/-- `Stop` returns the same error, leaves the same world and issues the same
calls whether or not `HasSession` returns an error with its boolean. -/
theorem Stop_withoutHasSessionError (d : Deps σ) (m : Manager) (r : Run σ) :
    (Manager.Stop d m r).1 = (Manager.Stop d.withoutHasSessionError m r).1 ∧
    (Manager.Stop d m r).2.st = (Manager.Stop d.withoutHasSessionError m r).2.st ∧
    callsOf (Manager.Stop d m r).2.log =
      callsOf (Manager.Stop d.withoutHasSessionError m r).2.log := by
  rw [Stop_eq d, Stop_eq d.withoutHasSessionError]
  simp only [withoutHasSessionError_HasSession, withoutHasSessionError_KillSession]
  split <;> simp [callsOf]

/-- `Start` returns the same error, leaves the same world and issues the same
calls whether or not `HasSession` returns an error with its boolean. -/
theorem Start_withoutHasSessionError (d : Deps σ) (m : Manager) (agentOverride : String)
    (envOverrides : List String) (r : Run σ) :
    (Manager.Start d m agentOverride envOverrides r).1 =
      (Manager.Start d.withoutHasSessionError m agentOverride envOverrides r).1 ∧
    (Manager.Start d m agentOverride envOverrides r).2.st =
      (Manager.Start d.withoutHasSessionError m agentOverride envOverrides r).2.st ∧
    callsOf (Manager.Start d m agentOverride envOverrides r).2.log =
      callsOf (Manager.Start d.withoutHasSessionError m agentOverride envOverrides r).2.log := by
  rw [Start_unfold d, Start_unfold d.withoutHasSessionError,
    liveness_eq d, liveness_eq d.withoutHasSessionError]
  simp only [withoutHasSessionError_HasSession, withoutHasSessionError_KillSession,
    withoutHasSessionError_IsAgentAlive, afterLiveness_withoutHasSessionError]
  by_cases h1 : (d.HasSession m.SessionName r.st).1 = true
  · by_cases h2 : d.IsAgentAlive m.SessionName r.st = true
    · simp [h1, h2, callsOf]
    · cases hk : (d.KillSession m.SessionName r.st).1 with
      | some k => simp [h1, h2, hk, callsOf]
      | none =>
        simp only [h1, h2, hk, if_true, Bool.false_eq_true, if_false, Option.map_none']
        rw [afterLiveness_frame d m agentOverride envOverrides
            { st := (d.KillSession m.SessionName r.st).2
              log := r.log ++
                [{ call := Call.HasSession m.SessionName,
                   err := (d.HasSession m.SessionName r.st).2 },
                 { call := Call.IsAgentAlive m.SessionName, err := none },
                 { call := Call.KillSession m.SessionName, err := none }] },
          afterLiveness_frame d m agentOverride envOverrides
            { st := (d.KillSession m.SessionName r.st).2
              log := r.log ++
                [{ call := Call.HasSession m.SessionName, err := none },
                 { call := Call.IsAgentAlive m.SessionName, err := none },
                 { call := Call.KillSession m.SessionName, err := none }] }]
        simp [Run.onto, callsOf]
  · simp only [h1, Bool.false_eq_true, if_false]
    rw [afterLiveness_frame d m agentOverride envOverrides
        { st := r.st
          log := r.log ++
            [{ call := Call.HasSession m.SessionName,
               err := (d.HasSession m.SessionName r.st).2 }] },
      afterLiveness_frame d m agentOverride envOverrides
        { st := r.st
          log := r.log ++ [{ call := Call.HasSession m.SessionName, err := none }] }]
    simp [Run.onto, callsOf]

/-! ### Runs of `Start` that return no error -/

/-- If the log of a run of `Start` holds a `WaitForCommand` on the session
that was not in the log before, the run went through the environment part into
the wait part, and the error logged is the one the wait returned there. -/
theorem Start_wait_outcome (d : Deps σ) (m : Manager) (agentOverride : String)
    (envOverrides : List String) (r : Run σ) (hpre : ∀ ev ∈ r.log, ev.call.stage ≤ 2)
    (ew : Option GoError)
    (h : Event.mk (Call.WaitForCommand m.SessionName d.SupportedShells d.ClaudeStartTimeout) ew ∈
      (Manager.Start d m agentOverride envOverrides r).2.log) :
    ∃ townRoot cf,
      Manager.Start d m agentOverride envOverrides r = Manager.Start.await d m townRoot cf ∧
      (d.WaitForCommand m.SessionName d.SupportedShells d.ClaudeStartTimeout cf.st).1 = ew := by
  rcases Start_shape d m agentOverride envOverrides r with
    ⟨_, hext, _⟩ | ⟨townRoot, r2, hext, _, heq⟩
  · rcases hext.mem h with h1 | h1
    · have := hpre _ h1
      simp [Call.stage] at this
    · simp [Call.stage] at h1
  · have hcfg : Extends (fun ev => ev.call.stage ≤ 2) r.log
        (Manager.Start.configure d m townRoot envOverrides r2).log :=
      (hext.mono (fun ev h => by omega)).trans
        ((configure_log d m townRoot envOverrides r2).mono (fun ev h => by omega))
    have hnot : ∀ e2, Event.mk
          (Call.WaitForCommand m.SessionName d.SupportedShells d.ClaudeStartTimeout) e2 ∉
        (Manager.Start.configure d m townRoot envOverrides r2).log := by
      intro e2 hmem
      rcases hcfg.mem hmem with h1 | h1
      · have := hpre _ h1
        simp [Call.stage] at this
      · simp [Call.stage] at h1
    refine ⟨townRoot, _, heq, ?_⟩
    rw [heq] at h
    cases hw : (d.WaitForCommand m.SessionName d.SupportedShells d.ClaudeStartTimeout
        (Manager.Start.configure d m townRoot envOverrides r2).st).1 with
    | none =>
      rw [await_ok d m townRoot _ hw] at h
      simp only [List.mem_append, List.mem_cons, List.mem_singleton, Event.mk.injEq,
        List.not_mem_nil, or_false] at h
      rcases h with h1 | h1 | h1 | h1 | h1
      · exact absurd h1 (hnot _)
      · exact h1.2.symm
      · simp at h1
      · simp at h1
      · simp at h1
    | some e2 =>
      rw [await_fail d m townRoot _ e2 hw] at h
      simp only [List.mem_append, List.mem_cons, List.mem_singleton, Event.mk.injEq,
        List.not_mem_nil, or_false] at h
      rcases h with h1 | h1 | h1
      · exact absurd h1 (hnot _)
      · exact h1.2.symm
      · simp at h1

/-! ### The restart command -/

theorem sim_has_remove (s : Sim) (name : String) : (s.remove name).has name = false := by
  unfold Sim.has Sim.remove
  simp

theorem sim_HasSession_remove (s : Sim) (name : String) :
    (simDeps waitFails).HasSession name
      ((simDeps waitFails).KillSessionWithProcesses name s).2 = (false, none) := by
  simp [simDeps, waitFails, Faults.none, sim_has_remove]

/-- C1. For every rig name, `SessionName` of a manager built for a rig of that
name is exactly `"gt-" ++ name ++ "-architect"`; two managers for rigs of the
same name (whatever their paths) return the same string; and
`architectSessionName` of the command layer returns that string too. -/
theorem SessionName_is_pure (name path1 path2 : String) :
    (NewManager { Name := name, Path := path1 }).SessionName = "gt-" ++ name ++ "-architect" ∧
    (NewManager { Name := name, Path := path2 }).SessionName =
      (NewManager { Name := name, Path := path1 }).SessionName ∧
    architectSessionName name = (NewManager { Name := name, Path := path1 }).SessionName := by
  refine ⟨?_, rfl, rfl⟩
  exact Sprintf_session name

/-! ## Start on a healthy session -/

/-- C2. If the driver reports that the session exists and that the agent is
alive in it (state Healthy), `Start` returns exactly `ErrAlreadyRunning`, the
world is unchanged and the only calls issued are the two read-only queries
`HasSession` and `IsAgentAlive`: no kill, no session creation, no environment
write, no bead lookup or creation and no settings materialisation. -/
theorem Start_healthy_refuses (d : Deps σ) (m : Manager) (agentOverride : String)
    (envOverrides : List String) (r : Run σ)
    (h : Liveness.of d m.SessionName r.st = Liveness.Healthy) :
    Manager.Start d m agentOverride envOverrides r =
      (some ErrAlreadyRunning,
        { st := r.st
          log := r.log ++
            [{ call := Call.HasSession m.SessionName, err := (d.HasSession m.SessionName r.st).2 },
             { call := Call.IsAgentAlive m.SessionName, err := none }] }) := by
  unfold Liveness.of at h
  have h1 : (d.HasSession m.SessionName r.st).1 = true := by
    by_contra hc
    simp [hc] at h
  have h2 : d.IsAgentAlive m.SessionName r.st = true := by
    by_contra hc
    simp [h1, hc] at h
  unfold Manager.Start
  simp [liveness_eq, h1, h2]

/-- Witness of C2 on the reference driver: a healthy `gt-a-architect`. -/
theorem Start_healthy_refuses_witness :
    Liveness.of (simDeps Faults.none) demoManager.SessionName healthyTable = Liveness.Healthy ∧
    Manager.Start (simDeps Faults.none) demoManager "" ["FOO=bar"]
        { st := healthyTable, log := [] } =
      (some ErrAlreadyRunning,
        { st := healthyTable
          log := [{ call := Call.HasSession "gt-a-architect", err := none },
                  { call := Call.IsAgentAlive "gt-a-architect", err := none }] }) :=
  ⟨by decide,
   Start_healthy_refuses (simDeps Faults.none) demoManager "" ["FOO=bar"]
     { st := healthyTable, log := [] } (by decide)⟩

/-! ## Start on a zombie session whose kill fails -/

/-- C3. If the driver reports that the session exists but the agent is not
alive in it (state Zombie) and `KillSession` on that session returns an error
`e`, then `Start` returns an error that wraps `e`, and the calls it issued are
exactly `HasSession`, `IsAgentAlive` and the failed `KillSession`: no
`NewSessionWithCommand` and no later step of the startup sequence. -/
theorem Start_zombie_kill_failure (d : Deps σ) (m : Manager) (agentOverride : String)
    (envOverrides : List String) (r : Run σ) (e : GoError)
    (hz : Liveness.of d m.SessionName r.st = Liveness.Zombie)
    (hk : (d.KillSession m.SessionName r.st).1 = some e) :
    Manager.Start d m agentOverride envOverrides r =
      (some (Errorf "killing zombie session: %w" e),
        { st := (d.KillSession m.SessionName r.st).2
          log := r.log ++
            [{ call := Call.HasSession m.SessionName, err := (d.HasSession m.SessionName r.st).2 },
             { call := Call.IsAgentAlive m.SessionName, err := none },
             { call := Call.KillSession m.SessionName, err := some e }] }) ∧
    (Errorf "killing zombie session: %w" e).Unwrap = some e := by
  unfold Liveness.of at hz
  have h1 : (d.HasSession m.SessionName r.st).1 = true := by
    by_contra hc
    simp [hc] at hz
  have h2 : d.IsAgentAlive m.SessionName r.st = false := by
    cases hc : d.IsAgentAlive m.SessionName r.st
    · rfl
    · simp [h1, hc] at hz
  refine ⟨?_, rfl⟩
  unfold Manager.Start
  simp [liveness_eq, h1, h2, hk]

/-- Witness of C3 on the reference driver: a zombie `gt-a-architect` and a
driver that cannot kill. -/
theorem Start_zombie_kill_failure_witness :
    Liveness.of (simDeps killFails) demoManager.SessionName zombieTable = Liveness.Zombie ∧
    ((simDeps killFails).KillSession demoManager.SessionName zombieTable).1 =
      some (GoError.external "kill failed") ∧
    (Manager.Start (simDeps killFails) demoManager "" [] { st := zombieTable, log := [] } =
      (some (Errorf "killing zombie session: %w" (GoError.external "kill failed")),
        { st := ((simDeps killFails).KillSession demoManager.SessionName zombieTable).2
          log := [] ++
            [{ call := Call.HasSession demoManager.SessionName,
               err := ((simDeps killFails).HasSession demoManager.SessionName zombieTable).2 },
             { call := Call.IsAgentAlive demoManager.SessionName, err := none },
             { call := Call.KillSession demoManager.SessionName,
               err := some (GoError.external "kill failed") }] }) ∧
    (Errorf "killing zombie session: %w" (GoError.external "kill failed")).Unwrap =
      some (GoError.external "kill failed")) :=
  ⟨by decide, by decide,
   Start_zombie_kill_failure (simDeps killFails) demoManager "" []
     { st := zombieTable, log := [] } (GoError.external "kill failed") (by decide) (by decide)⟩

/-! ## Start when the agent does not come up -/

/-- C4, as the code has it.  For every run of `Start` in which the bounded
wait for the agent process returns an error `e`: `Start` returns an error
that wraps `e`; its last two calls are the failed `WaitForCommand` and a
`KillSessionWithProcesses` on the session, whose error is discarded, and
`Start` returns in the world that kill left.  So if the driver's
`KillSessionWithProcesses` removes the session (afterwards `HasSession`
reports false with a nil error), the session is not in the table when `Start`
returns; nothing is promised when the kill does not remove it. -/
theorem Start_wait_failure_cleans_up (d : Deps σ) (m : Manager) (agentOverride : String)
    (envOverrides : List String) (w : σ) (e : GoError)
    (hwait : Event.mk (Call.WaitForCommand m.SessionName d.SupportedShells d.ClaudeStartTimeout)
        (some e) ∈
      (Manager.Start d m agentOverride envOverrides { st := w, log := [] }).2.log) :
    (Manager.Start d m agentOverride envOverrides { st := w, log := [] }).1 =
      some (Errorf "waiting for architect to start: %w" e) ∧
    (Errorf "waiting for architect to start: %w" e).Unwrap = some e ∧
    (∃ before w2,
      (Manager.Start d m agentOverride envOverrides { st := w, log := [] }).2.log =
        before ++
          [{ call := Call.WaitForCommand m.SessionName d.SupportedShells d.ClaudeStartTimeout,
             err := some e },
           { call := Call.KillSessionWithProcesses m.SessionName,
             err := (d.KillSessionWithProcesses m.SessionName w2).1 }] ∧
      (Manager.Start d m agentOverride envOverrides { st := w, log := [] }).2.st =
        (d.KillSessionWithProcesses m.SessionName w2).2) ∧
    ((∀ w2, d.HasSession m.SessionName (d.KillSessionWithProcesses m.SessionName w2).2 =
        (false, none)) →
      d.HasSession m.SessionName
        (Manager.Start d m agentOverride envOverrides { st := w, log := [] }).2.st =
          (false, none)) := by
  obtain ⟨townRoot, cf, heq, hw⟩ := Start_wait_outcome d m agentOverride envOverrides
    { st := w, log := [] } (by simp) (some e) hwait
  rw [heq, await_fail d m townRoot cf e hw]
  refine ⟨rfl, rfl, ⟨_, _, rfl, rfl⟩, ?_⟩
  intro hkill
  exact hkill _

/-- Witness of the amended C4 on the reference driver: the agent never shows
up, the cleanup kill works, and the session is gone when `Start` returns. -/
theorem Start_wait_failure_cleans_up_witness :
    Event.mk (Call.WaitForCommand demoManager.SessionName (simDeps waitFails).SupportedShells
        (simDeps waitFails).ClaudeStartTimeout)
        (some (GoError.external "timeout waiting for command")) ∈
      (Manager.Start (simDeps waitFails) demoManager "" []
        { st := absentTable, log := [] }).2.log ∧
    (∀ w2, (simDeps waitFails).HasSession demoManager.SessionName
      ((simDeps waitFails).KillSessionWithProcesses demoManager.SessionName w2).2 =
        (false, none)) ∧
    (Manager.Start (simDeps waitFails) demoManager "" []
        { st := absentTable, log := [] }).1 =
      some (Errorf "waiting for architect to start: %w"
        (GoError.external "timeout waiting for command")) ∧
    (simDeps waitFails).HasSession demoManager.SessionName
      (Manager.Start (simDeps waitFails) demoManager "" []
        { st := absentTable, log := [] }).2.st = (false, none) :=
  ⟨by decide, fun w2 => sim_HasSession_remove w2 _,
   (Start_wait_failure_cleans_up (simDeps waitFails) demoManager "" [] absentTable
     (GoError.external "timeout waiting for command") (by decide)).1,
   (Start_wait_failure_cleans_up (simDeps waitFails) demoManager "" [] absentTable
     (GoError.external "timeout waiting for command") (by decide)).2.2.2
     (fun w2 => sim_HasSession_remove w2 _)⟩

/-- C4 as stated fails: on the reference driver with an agent that never
shows up and a cleanup kill that fails, `Start` creates the session, returns
the wrapped wait error, and the session is still in the driver's table. -/
theorem Start_wait_failure_session_remains :
    (Manager.Start (simDeps waitAndCleanupFail) demoManager "" []
        { st := absentTable, log := [] }).1 =
      some (Errorf "waiting for architect to start: %w"
        (GoError.external "timeout waiting for command")) ∧
    ({ call := Call.NewSessionWithCommand "gt-a-architect" "/r" "claude", err := none } : Event) ∈
      (Manager.Start (simDeps waitAndCleanupFail) demoManager "" []
        { st := absentTable, log := [] }).2.log ∧
    ({ call := Call.KillSessionWithProcesses "gt-a-architect",
       err := some (GoError.external "kill failed") } : Event) ∈
      (Manager.Start (simDeps waitAndCleanupFail) demoManager "" []
        { st := absentTable, log := [] }).2.log ∧
    (simDeps waitAndCleanupFail).HasSession "gt-a-architect"
      (Manager.Start (simDeps waitAndCleanupFail) demoManager "" []
        { st := absentTable, log := [] }).2.st = (true, none) := by
  decide

/-! ## Stop -/

/-- C5, as the code has it.  `Stop` on a session the driver does not report
returns `ErrNotRunning` and issues no kill (its only call is `HasSession`, the
world is unchanged).  `Stop` on a session the driver reports issues one
`KillSession` on it, returns the driver's result and leaves the world that
kill left.  When the session was reported and that kill takes it out of the
table (afterwards `HasSession` reports false with a nil error), the session
is not in the table after `Stop`, and a second `Stop` issued right after
returns `ErrNotRunning` without a kill. -/
theorem Stop_then_Stop (d : Deps σ) (m : Manager) (r : Run σ) :
    Manager.Stop d m r =
      (if (d.HasSession m.SessionName r.st).1 then
        ((d.KillSession m.SessionName r.st).1,
          { st := (d.KillSession m.SessionName r.st).2
            log := r.log ++
              [{ call := Call.HasSession m.SessionName,
                 err := (d.HasSession m.SessionName r.st).2 },
               { call := Call.KillSession m.SessionName,
                 err := (d.KillSession m.SessionName r.st).1 }] })
      else
        (some ErrNotRunning,
          { st := r.st
            log := r.log ++
              [{ call := Call.HasSession m.SessionName,
                 err := (d.HasSession m.SessionName r.st).2 }] })) ∧
    ((d.HasSession m.SessionName r.st).1 = true →
      d.HasSession m.SessionName (d.KillSession m.SessionName r.st).2 = (false, none) →
      d.HasSession m.SessionName (Manager.Stop d m r).2.st = (false, none) ∧
      Manager.Stop d m (Manager.Stop d m r).2 =
        (some ErrNotRunning,
          { st := (Manager.Stop d m r).2.st
            log := (Manager.Stop d m r).2.log ++
              [{ call := Call.HasSession m.SessionName, err := none }] })) := by
  refine ⟨Stop_eq d m r, ?_⟩
  intro hrun hkill
  have hst : (Manager.Stop d m r).2.st = (d.KillSession m.SessionName r.st).2 := by
    rw [Stop_eq]
    simp [hrun]
  refine ⟨by rw [hst]; exact hkill, ?_⟩
  rw [Stop_eq d m (Manager.Stop d m r).2, hst, hkill]
  simp

/-- Witness of the amended C5 on the reference driver: stopping a healthy
`gt-a-architect` with a kill that works, then stopping again. -/
theorem Stop_then_Stop_witness :
    ((simDeps Faults.none).HasSession demoManager.SessionName healthyTable).1 = true ∧
    (simDeps Faults.none).HasSession demoManager.SessionName
      ((simDeps Faults.none).KillSession demoManager.SessionName healthyTable).2 =
        (false, none) ∧
    (Manager.Stop (simDeps Faults.none) demoManager { st := healthyTable, log := [] }).1 = none ∧
    (simDeps Faults.none).HasSession demoManager.SessionName
      (Manager.Stop (simDeps Faults.none) demoManager { st := healthyTable, log := [] }).2.st =
        (false, none) ∧
    (Manager.Stop (simDeps Faults.none) demoManager
      (Manager.Stop (simDeps Faults.none) demoManager { st := healthyTable, log := [] }).2).1 =
        some ErrNotRunning :=
  ⟨by decide, by decide, by decide,
   ((Stop_then_Stop (simDeps Faults.none) demoManager { st := healthyTable, log := [] }).2
     (by decide) (by decide)).1,
   congrArg Prod.fst
     ((Stop_then_Stop (simDeps Faults.none) demoManager { st := healthyTable, log := [] }).2
       (by decide) (by decide)).2⟩

/-- C5 as stated fails: on the reference driver with a kill that fails, `Stop`
on a healthy session returns the driver's error and leaves the session
Healthy, and a second `Stop` returns the driver's error again instead of
`ErrNotRunning`. -/
theorem Stop_kill_failure_session_remains :
    Liveness.of (simDeps killFails) demoManager.SessionName healthyTable = Liveness.Healthy ∧
    (Manager.Stop (simDeps killFails) demoManager { st := healthyTable, log := [] }).1 =
      some (GoError.external "kill failed") ∧
    Liveness.of (simDeps killFails) demoManager.SessionName
      (Manager.Stop (simDeps killFails) demoManager { st := healthyTable, log := [] }).2.st =
        Liveness.Healthy ∧
    (Manager.Stop (simDeps killFails) demoManager
      (Manager.Stop (simDeps killFails) demoManager { st := healthyTable, log := [] }).2).1 =
        some (GoError.external "kill failed") := by
  decide

/-! ## Restart -/

/-- Where the proviso of C6 is not met: on the reference driver with a kill
that fails, the restart of a Healthy session executes no fatal step of the
startup sequence, and returns `ErrAlreadyRunning` wrapped. -/
theorem restart_kill_failure_runs_no_fatal_step :
    Liveness.of (simDeps killFails) "gt-a-architect" healthyTable = Liveness.Healthy ∧
    (∀ ev ∈ (runArchitectRestart (simDeps killFails) "a" "" []
        { st := healthyTable, log := [] }).2.log, ev.call.isFatalStep = false) ∧
    (runArchitectRestart (simDeps killFails) "a" "" []
      { st := healthyTable, log := [] }).1 =
        some (Errorf "starting architect: %w" ErrAlreadyRunning) := by
  decide

/-! ## Errors of the session-existence check -/

/-- C7, as the code has it.  When `HasSession` returns an error `e`: `Status`
returns an error that wraps `e`, distinct from `ErrNotRunning` and
`ErrAlreadyRunning`.  `Stop` and `Start` drop `e` and act on the boolean
returned with it alone: each returns the same error, leaves the same world and
issues the same calls as with a driver that returns that boolean and a nil
error.  So `Stop` returns `ErrNotRunning` when the boolean is false and the
result of `KillSession` otherwise; `Start` goes on to its startup sequence
(lines 91-174) when the boolean is false, as for an Absent session, and
otherwise returns `ErrAlreadyRunning` or kills the stale session, as the
agent-liveness query says. -/
theorem HasSession_error_handling (d : Deps σ) (m : Manager) (agentOverride : String)
    (envOverrides : List String) (r : Run σ) (e : GoError)
    (h : (d.HasSession m.SessionName r.st).2 = some e) :
    (Manager.Status d m r).1 = (none, some (Errorf "checking session: %w" e)) ∧
    (Errorf "checking session: %w" e).Unwrap = some e ∧
    Errorf "checking session: %w" e ≠ ErrNotRunning ∧
    Errorf "checking session: %w" e ≠ ErrAlreadyRunning ∧
    ((Manager.Stop d m r).1 = (Manager.Stop d.withoutHasSessionError m r).1 ∧
      (Manager.Stop d m r).2.st = (Manager.Stop d.withoutHasSessionError m r).2.st ∧
      callsOf (Manager.Stop d m r).2.log =
        callsOf (Manager.Stop d.withoutHasSessionError m r).2.log) ∧
    (Manager.Stop d m r).1 =
      (if (d.HasSession m.SessionName r.st).1 then (d.KillSession m.SessionName r.st).1
       else some ErrNotRunning) ∧
    ((Manager.Start d m agentOverride envOverrides r).1 =
        (Manager.Start d.withoutHasSessionError m agentOverride envOverrides r).1 ∧
      (Manager.Start d m agentOverride envOverrides r).2.st =
        (Manager.Start d.withoutHasSessionError m agentOverride envOverrides r).2.st ∧
      callsOf (Manager.Start d m agentOverride envOverrides r).2.log =
        callsOf (Manager.Start d.withoutHasSessionError m agentOverride envOverrides r).2.log) ∧
    (Manager.Start d m agentOverride envOverrides r).1 =
      (if (d.HasSession m.SessionName r.st).1 then
        if d.IsAgentAlive m.SessionName r.st then some ErrAlreadyRunning
        else
          match (d.KillSession m.SessionName r.st).1 with
          | some k => some (Errorf "killing zombie session: %w" k)
          | none =>
            (Manager.Start.afterLiveness d m agentOverride envOverrides
              { st := (d.KillSession m.SessionName r.st).2, log := [] }).1
       else
        (Manager.Start.afterLiveness d m agentOverride envOverrides
          { st := r.st, log := [] }).1) := by
  refine ⟨?_, rfl, ?_, ?_, Stop_withoutHasSessionError d m r, ?_,
    Start_withoutHasSessionError d m agentOverride envOverrides r, ?_⟩
  · unfold Manager.Status
    simp [h]
  · simp [Errorf, ErrNotRunning]
  · simp [Errorf, ErrAlreadyRunning]
  · rw [Stop_eq]
    split <;> rfl
  · rw [Start_unfold, liveness_eq]
    by_cases h1 : (d.HasSession m.SessionName r.st).1 = true
    · by_cases h2 : d.IsAgentAlive m.SessionName r.st = true
      · simp [h1, h2]
      · cases hk : (d.KillSession m.SessionName r.st).1 with
        | some k => simp [h1, h2, hk]
        | none =>
          simp only [h1, h2, hk, if_true, Bool.false_eq_true, if_false, Option.map_none']
          rw [afterLiveness_frame]
          rfl
    · simp only [h1, Bool.false_eq_true, if_false]
      rw [afterLiveness_frame]
      rfl

/-- Witness of the amended C7 on the reference driver: a driver that cannot
answer the session-existence check, with the session in the table and without
it. -/
theorem HasSession_error_handling_witness :
    ((simDeps hasSessionFails).HasSession demoManager.SessionName healthyTable).2 =
      some (GoError.external "no server running") ∧
    (Manager.Status (simDeps hasSessionFails) demoManager { st := healthyTable, log := [] }).1 =
      (none, some (Errorf "checking session: %w" (GoError.external "no server running"))) ∧
    (Manager.Start (simDeps hasSessionFails) demoManager "" []
        { st := absentTable, log := [] }).1 =
      (Manager.Start (simDeps hasSessionFails).withoutHasSessionError demoManager "" []
        { st := absentTable, log := [] }).1 :=
  ⟨by decide,
   (HasSession_error_handling (simDeps hasSessionFails) demoManager "" []
     { st := healthyTable, log := [] } (GoError.external "no server running") (by decide)).1,
   (HasSession_error_handling (simDeps hasSessionFails) demoManager "" []
     { st := absentTable, log := [] } (GoError.external "no server running")
     (by decide)).2.2.2.2.2.2.1.1⟩

/-- C7 as stated fails for `Stop` and `Start`: on the reference driver with a
session-existence check that returns `(false, e)`, `Stop` returns exactly
`ErrNotRunning` and `Start` returns no error at all. -/
theorem HasSession_error_dropped_by_Stop_and_Start :
    (simDeps hasSessionFails).HasSession demoManager.SessionName absentTable =
      (false, some (GoError.external "no server running")) ∧
    (Manager.Stop (simDeps hasSessionFails) demoManager { st := absentTable, log := [] }).1 =
      some ErrNotRunning ∧
    (Manager.Start (simDeps hasSessionFails) demoManager "" []
      { st := absentTable, log := [] }).1 = none := by
  decide

/-- C8, as the code has it.  `IsRunning` issues the one call `HasSession` and
returns the pair it got, the boolean and the error, unchanged: it neither
replaces the boolean by false nor the error by nil. -/
theorem IsRunning_returns_driver_result (d : Deps σ) (m : Manager) (r : Run σ) :
    Manager.IsRunning d m r =
      (d.HasSession m.SessionName r.st,
        { st := r.st
          log := r.log ++
            [{ call := Call.HasSession m.SessionName,
               err := (d.HasSession m.SessionName r.st).2 }] }) := by
  rfl

/-- C8 as stated fails: on the reference driver with a session-existence check
that returns an error, `IsRunning` returns that error, not nil. -/
theorem IsRunning_propagates_error :
    ((simDeps hasSessionFails).HasSession demoManager.SessionName healthyTable).2 =
      some (GoError.external "no server running") ∧
    (Manager.IsRunning (simDeps hasSessionFails) demoManager
      { st := healthyTable, log := [] }).1 =
        (false, some (GoError.external "no server running")) := by
  decide

/-! ## Environment injection -/

/-- In a run of `Start` that created the session, the `SetEnvironment` calls
are the computed defaults in loop order followed by the override writes, and
the run goes on to the wait. -/
theorem Start_setEnvCalls (d : Deps σ) (m : Manager) (agentOverride : String)
    (envOverrides : List String) (w : σ)
    (hreach : ∃ ev ∈ (Manager.Start d m agentOverride envOverrides
      { st := w, log := [] }).2.log, ev.created = true) :
    (∃ townRoot w2,
      setEnvCalls (Manager.Start d m agentOverride envOverrides { st := w, log := [] }).2.log =
        (d.AgentEnv { Role := "architect", Rig := m.rig.Name, TownRoot := townRoot } w2).map
          (fun kv => (m.SessionName, kv.1, kv.2)) ++
        (specOverrideWrites envOverrides).map (fun kv => (m.SessionName, kv.1, kv.2))) ∧
    ∃ ev ∈ (Manager.Start d m agentOverride envOverrides { st := w, log := [] }).2.log,
      ev.call = Call.WaitForCommand m.SessionName d.SupportedShells d.ClaudeStartTimeout := by
  rcases Start_shape d m agentOverride envOverrides { st := w, log := [] } with
    ⟨_, hext, _⟩ | ⟨townRoot, r2, hext, _, heq⟩
  · obtain ⟨ev, hev, hc⟩ := hreach
    rcases hext.mem hev with h | h
    · simp at h
    · rw [h.2] at hc
      exact absurd hc (by simp)
  · rw [heq]
    obtain ⟨pre, hpre, hstage⟩ := hext
    simp only [List.nil_append] at hpre
    have h0 : setEnvCalls r2.log = [] := by
      rw [hpre]
      exact setEnvCalls_of_stage pre (fun ev hev => by have := hstage ev hev; omega)
    obtain ⟨post, hpost, hstage3⟩ := await_log d m townRoot
      (Manager.Start.configure d m townRoot envOverrides r2)
    have h3 : setEnvCalls post = [] :=
      setEnvCalls_of_stage post (fun ev hev => by have := hstage3 ev hev; omega)
    constructor
    · refine ⟨townRoot, r2.st, ?_⟩
      rw [hpost, setEnvCalls_append, configure_calls, h0, h3]
      simp
    · cases hw : (d.WaitForCommand m.SessionName d.SupportedShells d.ClaudeStartTimeout
          (Manager.Start.configure d m townRoot envOverrides r2).st).1 with
      | none =>
        rw [await_ok d m townRoot _ hw]
        exact ⟨_, List.mem_append_right _ (List.mem_cons_self _ _), rfl⟩
      | some e =>
        rw [await_fail d m townRoot _ e hw]
        exact ⟨_, List.mem_append_right _ (List.mem_cons_self _ _), rfl⟩

/-- C9. In every run of `Start` that created the session (and so reaches the
environment-injection step), the `SetEnvironment` calls issued are the
computed defaults followed by the override writes, and the override writes
are, in list order, exactly one write for each entry that contains `=`, with
the text before the first `=` as key and all the text after it as value; an
entry without `=` produces no write and does not stop `Start`, which goes on
to the wait for the agent.  For `["FOO=bar", "MALFORMED", "BAZ=1=2"]` the
writes are `(FOO, bar)` and `(BAZ, 1=2)`. -/
theorem Start_override_writes (d : Deps σ) (m : Manager) (agentOverride : String)
    (envOverrides : List String) (w : σ)
    (hreach : ∃ ev ∈ (Manager.Start d m agentOverride envOverrides
      { st := w, log := [] }).2.log, ev.created = true) :
    (∃ townRoot w2,
      setEnvCalls (Manager.Start d m agentOverride envOverrides { st := w, log := [] }).2.log =
        (d.AgentEnv { Role := "architect", Rig := m.rig.Name, TownRoot := townRoot } w2).map
          (fun kv => (m.SessionName, kv.1, kv.2)) ++
        (specOverrideWrites envOverrides).map (fun kv => (m.SessionName, kv.1, kv.2))) ∧
    (∃ ev ∈ (Manager.Start d m agentOverride envOverrides { st := w, log := [] }).2.log,
      ev.call = Call.WaitForCommand m.SessionName d.SupportedShells d.ClaudeStartTimeout) ∧
    specOverrideWrites ["FOO=bar", "MALFORMED", "BAZ=1=2"] = [("FOO", "bar"), ("BAZ", "1=2")] := by
  obtain ⟨h1, h2⟩ := Start_setEnvCalls d m agentOverride envOverrides w hreach
  exact ⟨h1, h2, by decide⟩

/-- Witness of C9 on the reference driver: a fresh start with the overrides
`FOO=bar`, `MALFORMED`, `BAZ=1=2`. -/
theorem Start_override_writes_witness :
    (∃ ev ∈ (Manager.Start (simDeps Faults.none) demoManager ""
      ["FOO=bar", "MALFORMED", "BAZ=1=2"] { st := absentTable, log := [] }).2.log,
      ev.created = true) ∧
    setEnvCalls (Manager.Start (simDeps Faults.none) demoManager ""
      ["FOO=bar", "MALFORMED", "BAZ=1=2"] { st := absentTable, log := [] }).2.log =
      [("gt-a-architect", "GT_ROLE", "architect"), ("gt-a-architect", "GT_RIG", "a"),
       ("gt-a-architect", "FOO", "bar"), ("gt-a-architect", "BAZ", "1=2")] ∧
    (∃ ev ∈ (Manager.Start (simDeps Faults.none) demoManager ""
      ["FOO=bar", "MALFORMED", "BAZ=1=2"] { st := absentTable, log := [] }).2.log,
      ev.call = Call.WaitForCommand demoManager.SessionName
        (simDeps Faults.none).SupportedShells (simDeps Faults.none).ClaudeStartTimeout) :=
  ⟨by decide, by decide,
   (Start_override_writes (simDeps Faults.none) demoManager ""
     ["FOO=bar", "MALFORMED", "BAZ=1=2"] absentTable (by decide)).2.1⟩

/-- C10. In every run of `Start` that created the session, with the computed
defaults a map (distinct keys, visited in any order): the writes on the
session are the defaults followed by the override writes, so every default
write precedes every override write; and after replaying the writes in order
on any initial environment, a key that occurs in a well-formed override has
the value of the last such override, whatever default was computed for it,
and any other key has its computed default (or its initial value when there
is no default for it). -/
theorem Start_overrides_win (d : Deps σ) (m : Manager) (agentOverride : String)
    (envOverrides : List String) (w : σ)
    (hmap : ∀ cfg w2, ((d.AgentEnv cfg w2).map Prod.fst).Nodup)
    (hreach : ∃ ev ∈ (Manager.Start d m agentOverride envOverrides
      { st := w, log := [] }).2.log, ev.created = true) :
    ∃ townRoot w2,
      sessionWrites m.SessionName
          (Manager.Start d m agentOverride envOverrides { st := w, log := [] }).2.log =
        d.AgentEnv { Role := "architect", Rig := m.rig.Name, TownRoot := townRoot } w2 ++
          specOverrideWrites envOverrides ∧
      ∀ env key,
        replay env (sessionWrites m.SessionName
          (Manager.Start d m agentOverride envOverrides { st := w, log := [] }).2.log) key =
        match lastWrite key (specOverrideWrites envOverrides) with
        | some v => some v
        | none =>
          match (d.AgentEnv { Role := "architect", Rig := m.rig.Name, TownRoot := townRoot }
            w2).lookup key with
          | some v => some v
          | none => env key := by
  obtain ⟨⟨townRoot, w2, hcalls⟩, _⟩ := Start_setEnvCalls d m agentOverride envOverrides w hreach
  have hw : sessionWrites m.SessionName
      (Manager.Start d m agentOverride envOverrides { st := w, log := [] }).2.log =
      d.AgentEnv { Role := "architect", Rig := m.rig.Name, TownRoot := townRoot } w2 ++
        specOverrideWrites envOverrides := by
    unfold sessionWrites
    rw [hcalls, ← List.map_append, sessionWrites_map]
  refine ⟨townRoot, w2, hw, ?_⟩
  intro env key
  rw [hw, replay_eq, lastWrite_append, lastWrite_eq_lookup key _ (hmap _ _)]
  cases lastWrite key (specOverrideWrites envOverrides) <;> rfl

/-- Witness of C10 on the reference driver: the override `GT_RIG=x` replaces
the computed default of `GT_RIG`, and `GT_ROLE` keeps its default. -/
theorem Start_overrides_win_witness :
    (∀ cfg w2, (((simDeps Faults.none).AgentEnv cfg w2).map Prod.fst).Nodup) ∧
    (∃ ev ∈ (Manager.Start (simDeps Faults.none) demoManager ""
      ["GT_RIG=x", "MALFORMED", "GT_RIG=y"] { st := absentTable, log := [] }).2.log,
      ev.created = true) ∧
    replay (fun _ => none) (sessionWrites demoManager.SessionName
      (Manager.Start (simDeps Faults.none) demoManager ""
        ["GT_RIG=x", "MALFORMED", "GT_RIG=y"] { st := absentTable, log := [] }).2.log)
      "GT_RIG" = some "y" ∧
    replay (fun _ => none) (sessionWrites demoManager.SessionName
      (Manager.Start (simDeps Faults.none) demoManager ""
        ["GT_RIG=x", "MALFORMED", "GT_RIG=y"] { st := absentTable, log := [] }).2.log)
      "GT_ROLE" = some "architect" ∧
    ∃ townRoot w2,
      sessionWrites demoManager.SessionName
          (Manager.Start (simDeps Faults.none) demoManager ""
            ["GT_RIG=x", "MALFORMED", "GT_RIG=y"] { st := absentTable, log := [] }).2.log =
        (simDeps Faults.none).AgentEnv
          { Role := "architect", Rig := demoManager.rig.Name, TownRoot := townRoot } w2 ++
          specOverrideWrites ["GT_RIG=x", "MALFORMED", "GT_RIG=y"] :=
  ⟨fun cfg w2 => by simp [simDeps], by decide, by decide, by decide,
   (Start_overrides_win (simDeps Faults.none) demoManager ""
     ["GT_RIG=x", "MALFORMED", "GT_RIG=y"] absentTable (fun cfg w2 => by simp [simDeps])
     (by decide)).imp (fun _ h => h.imp (fun _ h2 => h2.1))⟩

end Gastown
